import Mathlib

/-!
Verification of the contour-to-solid geometry pipeline of the
rhino-defect-synth repository.

The Python sources under `src/` are shallowly embedded here:

* pure helpers (`map_2d_to_cube_face`, `center_2d_points`,
  `read_contour_json`) become pure Lean functions over `ℚ`;
* the Rhino document (object table, layers, visibility) becomes an
  explicit `Doc` state threaded through the stateful functions
  (`split_face_and_keep_outer`, `create_cube`);
* calls into the opaque geometry host (boolean split, planar surface
  creation, curve direction / seam queries) become fields of a host
  record quantified over in the theorems;
* the ambient randomness of `create_crack` (`random.uniform`) becomes
  two injected rational samples, matching the spec's requirement of an
  injectable random source;
* Python floats become `ℚ` (the pipeline only adds, subtracts,
  multiplies and compares, so exact rationals model the data flow).
-/

namespace RhinoDefectSynth

/-- 3D point / vector, as an exact rational triple. -/
abbrev Vec3 : Type := ℚ × ℚ × ℚ

/-- Pointwise sum of a point and a vector (`rs.PointAdd`). -/
def vadd (p v : Vec3) : Vec3 := (p.1 + v.1, p.2.1 + v.2.1, p.2.2 + v.2.2)

/-- Scalar multiple of a vector (`rs.VectorScale`). -/
def vscale (t : ℚ) (v : Vec3) : Vec3 := (t * v.1, t * v.2.1, t * v.2.2)

/-- Translate every vertex of a polyline by a vector (`rs.CopyObject`
with a translation). -/
def translatePts (pts : List Vec3) (v : Vec3) : List Vec3 := pts.map (fun p => vadd p v)

/-! ## FaceFrame: `map_2d_to_cube_face` (src/utils_loc/cube_modeling.py, lines 137-167) -/

/-- Python `str.strip()`: drop whitespace from both ends.  Implemented
by structural recursion on the character list so that the kernel can
evaluate it (Lean's own `String.trim` is position-based and does not
reduce). -/
def strStrip (s : String) : String :=
  ⟨((s.data.dropWhile Char.isWhitespace).reverse.dropWhile Char.isWhitespace).reverse⟩

/-- Python `str.lower()`, for the ASCII face labels used here. -/
def strLower (s : String) : String := ⟨s.data.map Char.toLower⟩

/-- The `face.strip().lower()` normalization applied by
`map_2d_to_cube_face` before dispatching on the face label. -/
def normalizeFace (face : String) : String := strLower (strStrip face)

/-- Mapping of one centered 2D point onto a cube face, following the
six-way dispatch of `map_2d_to_cube_face`: the fixed axis is held at
`±CUBE_LENGTH/2` and `(u, v)` fill the remaining two world axes in
order.  `none` models the `ValueError` raised for an unknown face. -/
def map_pt_to_cube_face (cubeLength : ℚ) (face : String) (uv : ℚ × ℚ) : Option Vec3 :=
  let f := normalizeFace face
  if f = "+x" then some (cubeLength / 2, uv.1, uv.2)
  else if f = "-x" then some (-(cubeLength / 2), uv.1, uv.2)
  else if f = "+y" then some (uv.1, cubeLength / 2, uv.2)
  else if f = "-y" then some (uv.1, -(cubeLength / 2), uv.2)
  else if f = "+z" then some (uv.1, uv.2, cubeLength / 2)
  else if f = "-z" then some (uv.1, uv.2, -(cubeLength / 2))
  else none

/-- Map a fallible function over a list, failing on the first failure
(the Option-monad `mapM`, written structurally so the kernel can
evaluate it). -/
def mapOptList {α β : Type} (f : α → Option β) : List α → Option (List β)
  | [] => some []
  | a :: rest =>
    match f a, mapOptList f rest with
    | some b, some bs => some (b :: bs)
    | _, _ => none

/-- `map_2d_to_cube_face`: maps a list of centered 2D points (in mm)
onto the named cube face.  The source normalizes the face string once
and raises on an unknown label while mapping the points; mapping the
per-point embedding with first-failure semantics is equivalent because
the label is constant. -/
def map_2d_to_cube_face (cubeLength : ℚ) (pts : List (ℚ × ℚ)) (face : String) :
    Option (List Vec3) :=
  mapOptList (map_pt_to_cube_face cubeLength face) pts

/-- Projection dropping the fixed axis of a face (the coordinate held
at `±CUBE_LENGTH/2`), returning the remaining two coordinates in the
order `map_pt_to_cube_face` placed them.  This is the inverse direction
of the round-trip property stated by the spec. -/
def project_out_fixed_axis (face : String) (p : Vec3) : Option (ℚ × ℚ) :=
  let f := normalizeFace face
  if f = "+x" ∨ f = "-x" then some (p.2.1, p.2.2)
  else if f = "+y" ∨ f = "-y" then some (p.1, p.2.2)
  else if f = "+z" ∨ f = "-z" then some (p.1, p.2.1)
  else none

/-- `center_2d_points` (src/utils_loc/cube_modeling.py, lines 127-134):
shift both local coordinates by `-CUBE_LENGTH/2`.  The global
`CUBE_LENGTH` read by the source is passed explicitly. -/
def center_2d_points (cubeLength : ℚ) (pts : List (ℚ × ℚ)) : List (ℚ × ℚ) :=
  pts.map (fun p => (p.1 - cubeLength / 2, p.2 - cubeLength / 2))

/-! ## ContourIngestor: `read_contour_json` (src/utils_loc/cube_modeling.py, lines 66-124)

File access and JSON parsing are external collaborators; the embedding
starts from the decoded record.  Absent optional keys are `none`. -/

/-- One decoded contour record: a `parent` reference (`-1` = no parent,
i.e. a crack/primary region) and its 2D points. -/
structure Contour where
  parent : Int
  points : List (ℚ × ℚ)
deriving DecidableEq

/-- A decoded per-face JSON record.  `pixel_size_cm`, `width_px`,
`height_px` and `contours` are `Option`s because the source guards
their absence. -/
structure FaceRecord where
  pixel_size_cm : Option ℚ
  width_px : Option ℚ
  height_px : Option ℚ
  contours : Option (List (List Contour))
  severities : List String
  expanded_contours : List Contour
  base_contours : List Contour
  difference_contours : List (List Contour)
deriving DecidableEq

/-- Errors raised by `read_contour_json` (all surface as `KeyError` in
the source; the spec names them `MissingField` / `InvalidDimensions`). -/
inductive IngestError where
  | missingPixelSize
  | invalidDimensions
  | missingContours
deriving DecidableEq

/-- The five parallel contour families returned by ingestion. -/
structure ContourFamilies where
  contours : List (List Contour)
  base_contours : List Contour
  erode_contours : List Contour
  diff_contours : List (List Contour)
  severities : List String
deriving DecidableEq

/-- `_contour_conversion`: multiply every pixel coordinate by the
pixel-to-mm scale factor. -/
def scale_contour (s : ℚ) (c : Contour) : Contour :=
  { parent := c.parent, points := c.points.map (fun p => (p.1 * s, p.2 * s)) }

/-- `read_contour_json`: returns the ingestion result together with the
value of the module-level `CUBE_LENGTH` after the call.  The source
executes `global CUBE_LENGTH; CUBE_LENGTH = map_pixel * pixel_size_mm`
before checking for `contours`, so the second component models that
module-level mutation explicitly (the incoming `cube_length` is the
value of the global before the call).

`map_pixel` is `float(data.get("width_px", 0) or data.get("height_px", 0))`:
Python's `or` picks `width_px` when it is present and non-zero
(truthy) and otherwise falls through to `height_px` (default `0`). -/
def read_contour_json (rec : FaceRecord) (cube_length : ℚ) :
    Except IngestError ContourFamilies × ℚ :=
  match rec.pixel_size_cm with
  | none => (.error .missingPixelSize, cube_length)
  | some psc =>
    let pixel_size_mm := psc * 10
    let map_pixel := if rec.width_px.getD 0 ≠ 0 then rec.width_px.getD 0
                     else rec.height_px.getD 0
    if map_pixel = 0 then (.error .invalidDimensions, cube_length)
    else
      let new_cube_length := map_pixel * pixel_size_mm
      match rec.contours with
      | none => (.error .missingContours, new_cube_length)
      | some cnts =>
        (.ok { contours := cnts.map (fun l => l.map (scale_contour pixel_size_mm))
             , base_contours := rec.base_contours.map (scale_contour pixel_size_mm)
             , erode_contours := rec.expanded_contours.map (scale_contour pixel_size_mm)
             , diff_contours := rec.difference_contours.map (fun l => l.map (scale_contour pixel_size_mm))
             , severities := rec.severities },
         new_cube_length)

/-! ## Rhino document model

The functions below mutate the Rhino document (object table, layers,
visibility).  The document is modeled as an explicit state: an object
table keyed by `Nat` ids (GUIDs), an allocation counter for fresh ids,
the model absolute tolerance, and the layer table.  Geometry produced
by opaque host computations (areas of boolean-split fragments, planar
surfaces) is carried as abstract `Brep` values supplied by a
`GeomHost` record. -/

/-- A Brep as seen through the host: only the data the pipeline reads
back is kept.  `area = none` models `AreaMassProperties.Compute`
returning nothing (the source then substitutes `0.0`). -/
structure Brep where
  area : Option ℚ
deriving DecidableEq

/-- A document object: a polyline curve, a Brep (surface / split
piece), or something `rs.coercebrep` fails on. -/
inductive Obj where
  | polyline (pts : List Vec3)
  | srf (b : Brep)
  | other
deriving DecidableEq

/-- One row of the document's object table. -/
structure Entry where
  oid : Nat
  geom : Obj
  layer : String
  visible : Bool
deriving DecidableEq

/-- The Rhino document state. -/
structure Doc where
  objs : List Entry
  nextId : Nat
  tol : ℚ
  layers : List String
deriving DecidableEq

/-- Look an object up by id. -/
def Doc.findObj (d : Doc) (i : Nat) : Option Entry :=
  d.objs.find? (fun e => e.oid == i)

/-- `rs.IsObject`. -/
def Doc.isObject (d : Doc) (i : Nat) : Bool := (d.findObj i).isSome

/-- `rs.coercebrep`: succeeds only on Brep objects. -/
def Doc.coercebrep (d : Doc) (i : Nat) : Option Brep :=
  match d.findObj i with
  | some e =>
    match e.geom with
    | .srf b => some b
    | _ => none
  | none => none

/-- Add an object under a fresh id (`sc.doc.Objects.AddBrep`,
`rs.AddPolyline`, ...); new objects are visible on the default layer. -/
def Doc.addObj (d : Doc) (g : Obj) : Doc × Nat :=
  ({ d with objs := d.objs ++ [⟨d.nextId, g, "", true⟩], nextId := d.nextId + 1 }, d.nextId)

/-- `rs.DeleteObject`. -/
def Doc.deleteObj (d : Doc) (i : Nat) : Doc :=
  { d with objs := d.objs.filter (fun e => e.oid != i) }

/-- `rs.ObjectLayer`. -/
def Doc.setLayer (d : Doc) (i : Nat) (l : String) : Doc :=
  { d with objs := d.objs.map (fun e => if e.oid == i then { e with layer := l } else e) }

/-- `rs.HideObject` / `rs.ShowObject`. -/
def Doc.setVisible (d : Doc) (i : Nat) (v : Bool) : Doc :=
  { d with objs := d.objs.map (fun e => if e.oid == i then { e with visible := v } else e) }

/-- `rs.IsLayer`. -/
def Doc.isLayer (d : Doc) (name : String) : Bool := d.layers.contains name

/-- Document well-formedness: every stored id was allocated below the
fresh-id counter (true of documents built through `Doc.addObj`). -/
def Doc.WF (d : Doc) : Prop := ∀ e ∈ d.objs, e.oid < d.nextId

/-- The opaque geometry-host surface consumed by the core:
`Brep.Split(base, cutters, tol)` and planar-surface creation from a
closed boundary. -/
structure GeomHost where
  split : Brep → List Brep → ℚ → List Brep
  planarBrep : List Vec3 → Brep

/-- Python `max` on a list of floats (the source only applies it to a
non-empty list; the `[]` case is an arbitrary default). -/
def pyMax : List ℚ → ℚ
  | [] => 0
  | a :: rest => rest.foldl max a

/-- Python `list.index`: position of the first occurrence. -/
def pyIndex : List ℚ → ℚ → Nat
  | [], _ => 0
  | a :: rest, x => if a = x then 0 else pyIndex rest x + 1

/-- The `for b in split_breps: sc.doc.Objects.AddBrep(b)` loop
(src/utils_loc/cube_modeling.py, lines 239-242): add every split piece
to the document, collecting the new ids in order. -/
def addPieces (d : Doc) : List Brep → Doc × List Nat
  | [] => (d, [])
  | b :: rest =>
    let (d1, pid) := d.addObj (.srf b)
    let (d2, pids) := addPieces d1 rest
    (d2, pid :: pids)

/-- The area-computation loop (lines 248-255): `coercebrep` each
piece; a failed coercion or a failed `AreaMassProperties` contributes
`0.0`. -/
def pieceAreas (d : Doc) (pids : List Nat) : List ℚ :=
  pids.map (fun pid =>
    match d.coercebrep pid with
    | some b => b.area.getD 0
    | none => 0)

/-- The `for i, pid in enumerate(piece_ids)` deletion loop
(lines 265-267): delete every piece except the one at index `keep`.
`i` is the running `enumerate` index. -/
def deleteOthersAux (keep : Nat) : Doc → Nat → List Nat → Doc
  | d, _, [] => d
  | d, i, pid :: rest =>
    let d1 := if i ≠ keep ∧ d.isObject pid then d.deleteObj pid else d
    deleteOthersAux keep d1 (i + 1) rest

/-- `split_face_and_keep_outer` (src/utils_loc/cube_modeling.py, lines
199-269): split the base face by all cutters at once and keep only the
largest-area piece.  Falsy cutter entries are `none`; invalid (non-Brep)
cutters are skipped by the coercion loop.  This variant does NOT delete
the cutter objects. -/
def split_face_and_keep_outer (host : GeomHost) (d : Doc) (base_srf_id : Nat)
    (cutters : List (Option Nat)) : Doc × Option Nat :=
  if cutters.isEmpty then (d, some base_srf_id)
  else
    match d.coercebrep base_srf_id with
    | none => (d, some base_srf_id)
    | some base_brep =>
      let cutter_breps := cutters.filterMap (fun cid => cid.bind d.coercebrep)
      if cutter_breps.isEmpty then (d, some base_srf_id)
      else
        let split_breps := host.split base_brep cutter_breps d.tol
        if split_breps.isEmpty then (d, some base_srf_id)
        else
          let (d1, piece_ids) := addPieces d split_breps
          let d2 := d1.deleteObj base_srf_id
          let areas := pieceAreas d2 piece_ids
          if areas.isEmpty then (d2, none)
          else
            let idx_max := pyIndex areas (pyMax areas)
            (deleteOthersAux idx_max d2 0 piece_ids, piece_ids.get? idx_max)

/-- The legacy cutter-deletion loop (src/cube_modeling.py, lines
243-245): `for cid in cutters: if rs.IsObject(cid): rs.DeleteObject(cid)`. -/
def deleteCutters (d : Doc) : List (Option Nat) → Doc
  | [] => d
  | none :: rest => deleteCutters d rest
  | some cid :: rest =>
    deleteCutters (if d.isObject cid then d.deleteObj cid else d) rest

/-- `split_face_and_keep_outer` as in the legacy script
(src/cube_modeling.py, lines 196-269).  Identical to the pipeline
variant except that after deleting the original base surface it also
deletes the cutter objects (lines 241-245). -/
def split_face_and_keep_outer_legacy (host : GeomHost) (d : Doc) (base_srf_id : Nat)
    (cutters : List (Option Nat)) : Doc × Option Nat :=
  if cutters.isEmpty then (d, some base_srf_id)
  else
    match d.coercebrep base_srf_id with
    | none => (d, some base_srf_id)
    | some base_brep =>
      let cutter_breps := cutters.filterMap (fun cid => cid.bind d.coercebrep)
      if cutter_breps.isEmpty then (d, some base_srf_id)
      else
        let split_breps := host.split base_brep cutter_breps d.tol
        if split_breps.isEmpty then (d, some base_srf_id)
        else
          let (d1, piece_ids) := addPieces d split_breps
          let d2 := deleteCutters (d1.deleteObj base_srf_id) cutters
          let areas := pieceAreas d2 piece_ids
          if areas.isEmpty then (d2, none)
          else
            let idx_max := pyIndex areas (pyMax areas)
            (deleteOthersAux idx_max d2 0 piece_ids, piece_ids.get? idx_max)

/-! ## CubeAssembler: `create_cube` (src/utils_loc/cube_modeling.py, lines 272-363)

Directory listing / JSON loading are external; `create_cube` is
embedded from the decoded records onward.  The cube-face dictionary
produced by `__create_cube_faces` (pure host geometry: box creation,
explode, bounding boxes) enters as an association of face labels to
document ids of the six face surfaces. -/

/-- Errors propagating out of `create_cube` (Python exceptions).
`contourCountMismatch` is the `assert` at line 286; `missingLayer` is
the `ValueError` at lines 317-318; `unknownFace` is the `ValueError`
of `map_2d_to_cube_face`. -/
inductive CubeError where
  | ingest (e : IngestError)
  | contourCountMismatch
  | unknownFace (face : String)
  | missingLayer (layerName : String)
deriving DecidableEq

/-- `pts.append(pts[0])` closing step of `add_polygon_curve` (lines
178-181): append the first point when it differs from the last. -/
def closeCurvePts (pts : List Vec3) : List Vec3 :=
  match pts with
  | [] => []
  | p :: _ => if pts.getLast? = some p then pts else pts ++ [p]

/-- `add_polygon_curve` (lines 170-183): `None` for an empty point
list, otherwise a new closed polyline object.  (`rs.AddPolyline`
succeeding on the non-empty closed vertex list is a host assumption.) -/
def add_polygon_curve (d : Doc) (pts : List Vec3) : Doc × Option Nat :=
  match pts with
  | [] => (d, none)
  | _ :: _ =>
    let (d1, pid) := d.addObj (.polyline (closeCurvePts pts))
    (d1, some pid)

/-- The per-contour classification loop of `create_cube` (lines
320-332): center, embed, drop contours with fewer than 3 mapped
points, create the polyline, and sort its id into the non-crack list
when `parent != -1` and into the crack list otherwise. -/
def classify_contours (cl : ℚ) (face_dir : String) (d : Doc) :
    List Contour → Except CubeError (Doc × List Nat × List Nat)
  | [] => .ok (d, [], [])
  | c :: rest =>
    match map_2d_to_cube_face cl (center_2d_points cl c.points) face_dir with
    | none => .error (.unknownFace face_dir)
    | some pts_3d =>
      if pts_3d.length < 3 then classify_contours cl face_dir d rest
      else
        let (d1, pid?) := add_polygon_curve d pts_3d
        match pid? with
        | none => classify_contours cl face_dir d1 rest
        | some pid =>
          match classify_contours cl face_dir d1 rest with
          | .error e => .error e
          | .ok (d2, crack_ids, noncrack_ids) =>
            if c.parent ≠ -1 then .ok (d2, crack_ids, pid :: noncrack_ids)
            else .ok (d2, pid :: crack_ids, noncrack_ids)

/-- The diff-contour loop (lines 307-313): embed each difference
contour and keep the ids of the successfully created polylines. -/
def addDiffPolys (cl : ℚ) (face_dir : String) (d : Doc) :
    List Contour → Except CubeError (Doc × List Nat)
  | [] => .ok (d, [])
  | c :: rest =>
    match map_2d_to_cube_face cl (center_2d_points cl c.points) face_dir with
    | none => .error (.unknownFace face_dir)
    | some pts_3d =>
      let (d1, pid?) := add_polygon_curve d pts_3d
      match addDiffPolys cl face_dir d1 rest with
      | .error e => .error e
      | .ok (d2, ids) =>
        match pid? with
        | some pid => .ok (d2, pid :: ids)
        | none => .ok (d2, ids)

/-- The per-group data addressed by index `i` in the
`for i in range(n_bases)` loop of `create_cube`. -/
structure GroupIn where
  contour_group : List Contour
  base_contour : Contour
  erode_contour : Contour
  diff_group : List Contour
  severity : String
deriving DecidableEq

/-- The crack-item bundle appended at lines 345-352. -/
structure CrackItem where
  offset_surface : Nat
  crack_polys : List Nat
  inside_polys : List Nat
  base_poly : Nat
  offset_poly : Nat
  diff_polys : List Nat
deriving DecidableEq

/-- `rs.AddPlanarSrf(erode_poly_id)[0]` (line 341): build the planar
surface spanned by an existing closed polyline.  The host produces one
face per closed planar boundary (the source indexes `[0]`
unconditionally, so success is assumed there). -/
def addPlanarSrfFromCurve (host : GeomHost) (d : Doc) (pid : Nat) : Doc × Option Nat :=
  match d.findObj pid with
  | some e =>
    match e.geom with
    | .polyline pts =>
      let (d1, sid) := d.addObj (.srf (host.planarBrep pts))
      (d1, some sid)
    | _ => (d, none)
  | none => (d, none)

/-- The `for i in range(n_bases)` group loop of `create_cube` (lines
292-352), recursing over the zipped per-group families.  Returns the
final document, the cutter surface ids, and the crack items, each in
group order.  `continue` branches (empty erode/base polyline, no crack
polygons in the group) skip the group; the `ValueError` for a missing
severity layer aborts. -/
def process_groups (host : GeomHost) (cl : ℚ) (face_dir : String) :
    Doc → List GroupIn → Except CubeError (Doc × List Nat × List CrackItem)
  | d, [] => .ok (d, [], [])
  | d, g :: rest =>
    match map_2d_to_cube_face cl (center_2d_points cl g.erode_contour.points) face_dir with
    | none => .error (.unknownFace face_dir)
    | some erode_pts_3d =>
      let (d1, erodePid?) := add_polygon_curve d erode_pts_3d
      match erodePid? with
      | none => process_groups host cl face_dir d1 rest
      | some erode_poly_id =>
        match map_2d_to_cube_face cl (center_2d_points cl g.base_contour.points) face_dir with
        | none => .error (.unknownFace face_dir)
        | some base_pts_3d =>
          let (d2, basePid?) := add_polygon_curve d1 base_pts_3d
          match basePid? with
          | none => process_groups host cl face_dir d2 rest
          | some base_poly_id =>
            match addDiffPolys cl face_dir d2 g.diff_group with
            | .error e => .error e
            | .ok (d3, diff_poly_ids) =>
              let layer_name := "crack_" ++ g.severity
              if d3.isLayer layer_name then
                match classify_contours cl face_dir d3 g.contour_group with
                | .error e => .error e
                | .ok (d4, crack_poly_ids, noncrack_poly_ids) =>
                  if crack_poly_ids.isEmpty then process_groups host cl face_dir d4 rest
                  else
                    let d5 := crack_poly_ids.foldl (fun dd pid => dd.setLayer pid layer_name) d4
                    let d6 := d5.setLayer erode_poly_id layer_name
                    let (d7, srf?) := addPlanarSrfFromCurve host d6 erode_poly_id
                    match srf? with
                    | none => process_groups host cl face_dir d7 rest
                    | some offset_srf_id =>
                      let d8 := d7.setLayer offset_srf_id layer_name
                      match process_groups host cl face_dir d8 rest with
                      | .error e => .error e
                      | .ok (d9, cutters, items) =>
                        .ok (d9, offset_srf_id :: cutters,
                             { offset_surface := offset_srf_id
                             , crack_polys := crack_poly_ids
                             , inside_polys := noncrack_poly_ids
                             , base_poly := base_poly_id
                             , offset_poly := erode_poly_id
                             , diff_polys := diff_poly_ids } :: items)
              else .error (.missingLayer layer_name)

/-- Zip the five parallel families into the per-group records indexed
by the `for i in range(n_bases)` loop (exact when the asserted length
equality holds). -/
def zipGroups : List (List Contour) → List Contour → List Contour → List (List Contour) →
    List String → List GroupIn
  | cg :: cs, b :: bs, e :: es, dg :: ds, s :: ss =>
    ⟨cg, b, e, dg, s⟩ :: zipGroups cs bs es ds ss
  | _, _, _, _, _ => []

/-- The body of `create_cube`'s per-face loop (lines 280-357): hide
the face, ingest the record (updating the module-level `CUBE_LENGTH`),
assert the parallel-family length invariant, process the groups,
split the face by the collected cutters (the returned outer id is
discarded by the source), show the face again, and emit this face's
crack items.  The returned `ℚ` is the module-level `CUBE_LENGTH`
after the call. -/
def create_cube_face (host : GeomHost) (d : Doc) (cube_length : ℚ) (face_dir : String)
    (face_id : Nat) (rec : FaceRecord) : Except CubeError (Doc × ℚ × List CrackItem) :=
  let d0 := d.setVisible face_id false
  match read_contour_json rec cube_length with
  | (.error e, _) => .error (.ingest e)
  | (.ok fams, cl) =>
    if fams.contours.length = fams.severities.length ∧
       fams.severities.length = fams.erode_contours.length ∧
       fams.erode_contours.length = fams.base_contours.length ∧
       fams.base_contours.length = fams.diff_contours.length then
      match process_groups host cl face_dir d0
          (zipGroups fams.contours fams.base_contours fams.erode_contours
            fams.diff_contours fams.severities) with
      | .error e => .error e
      | .ok (d1, cutters, items) =>
        let (d2, _) := split_face_and_keep_outer host d1 face_id (cutters.map some)
        let d3 := d2.setVisible face_id true
        .ok (d3, cl, items)
    else .error .contourCountMismatch

/-- The per-face loop of `create_cube` over `zip(faces.keys(),
filepaths)`, collecting `face_cracks[face_dir] = crack_items`. -/
def create_cube_loop (host : GeomHost) :
    Doc → ℚ → List (String × Nat) → List FaceRecord →
    Except CubeError (Doc × ℚ × List (String × List CrackItem))
  | d, cl, [], _ => .ok (d, cl, [])
  | d, cl, _ :: _, [] => .ok (d, cl, [])
  | d, cl, (face_dir, face_id) :: faces, rec :: recs =>
    match create_cube_face host d cl face_dir face_id rec with
    | .error e => .error e
    | .ok (d1, cl1, items) =>
      match create_cube_loop host d1 cl1 faces recs with
      | .error e => .error e
      | .ok (d2, cl2, m) => .ok (d2, cl2, (face_dir, items) :: m)

/-- The final cleanup loop of `create_cube` (lines 359-361): delete
every original face object still present. -/
def deleteFaces (d : Doc) : List Nat → Doc
  | [] => d
  | f :: fs => deleteFaces (if d.isObject f then d.deleteObj f else d) fs

/-- `create_cube` end to end over decoded records: run the per-face
loop, then delete the original face surfaces; the result value is the
`face_cracks` dictionary (face label to crack items) — and nothing
else. -/
def create_cube (host : GeomHost) (d : Doc) (cube_length : ℚ)
    (faces : List (String × Nat)) (recs : List FaceRecord) :
    Except CubeError (Doc × ℚ × List (String × List CrackItem)) :=
  match create_cube_loop host d cube_length faces recs with
  | .error e => .error e
  | .ok (d1, cl1, m) => .ok (deleteFaces d1 (faces.map Prod.snd), cl1, m)

/-! ## CrackExtruder: `create_crack` (src/utils_loc/crack_modeling.py)

`create_crack` consumes curve objects and produces surfaces/solids.
Curves are modeled as vertex-list values (the callers pass ids of
polylines whose geometry is exactly such a list); the surfaces and
solids it creates, together with their layer assignments, form an
explicit creation state.  The temporary translated curves that the
cleanup block (lines 134-138) deletes are plain values here, so the
state holds exactly the geometry that survives the call.

Host queries without algorithmic content in the source
(`rs.CurveDirectionsMatch`, the `rs.CurveSeam` reparameterization,
`_poly_inward_direction`'s curve normal) are oracle fields, and the
two `random.uniform` draws are injected samples, as the spec requires
of a testable reimplementation. -/

/-- Host oracles and injected randomness for `create_crack`. -/
structure CrackEnv where
  dirMatch : List Vec3 → List Vec3 → Bool
  seam : List Vec3 → Vec3 → List Vec3
  polyInward : List Vec3 → Option Vec3
  isLayer : String → Bool
  d1 : ℚ
  d2delta : ℚ

/-- Geometry created by `create_crack`. -/
inductive CrackObj where
  | planarSrf (boundary : List Vec3)
  | loftSrf (c1 c2 : List Vec3)
  | extrudedSolid (curve : List Vec3) (startPt stopPt : Vec3)
deriving DecidableEq

/-- One created object with its current layer (`""` = the ambient
current layer new objects land on). -/
structure CrackEntry where
  oid : Nat
  geom : CrackObj
  layer : String
deriving DecidableEq

/-- Creation state of `create_crack`. -/
structure CrackState where
  ctr : Nat
  objs : List CrackEntry
deriving DecidableEq

/-- Allocate a new object. -/
def CrackState.newObj (s : CrackState) (g : CrackObj) : CrackState × Nat :=
  ({ ctr := s.ctr + 1, objs := s.objs ++ [⟨s.ctr, g, ""⟩] }, s.ctr)

/-- Look a created object up by id. -/
def CrackState.findObj (s : CrackState) (i : Nat) : Option CrackEntry :=
  s.objs.find? (fun e => e.oid == i)

/-- `rs.ObjectLayer` on the creation state. -/
def CrackState.setLayer (s : CrackState) (i : Nat) (l : String) : CrackState :=
  { s with objs := s.objs.map (fun e => if e.oid == i then { e with layer := l } else e) }

/-- All ids already allocated are below the counter. -/
def CrackState.WF (s : CrackState) : Prop := ∀ e ∈ s.objs, e.oid < s.ctr

/-- A Python value flowing through the tagging block of `create_crack`:
either a bare GUID (e.g. `rs.ExtrudeCurveStraight`'s result) or a list
of GUIDs (e.g. `rs.AddPlanarSrf` / `rs.AddLoftSrf` results, appended
whole). -/
inductive PyVal where
  | guid (i : Nat)
  | guidList (ids : List Nat)
deriving DecidableEq

/-- `rs.coerceguid(getattr(obj, "Id", obj), False)`: accepts a bare
GUID and unwraps a singleton list/tuple; anything else yields `None`. -/
def coerceguid : PyVal → Option Nat
  | .guid i => some i
  | .guidList [i] => some i
  | .guidList _ => none

/-- The diff-polygon loop (crack_modeling.py, lines 43-50): translate
each difference polygon by `vec_d1` and build a planar surface on the
copy; `rs.AddPlanarSrf` returns a (singleton) id list, which is
appended whole to `diff_surfaces`. -/
def diffLoop (s : CrackState) (vecd1 : Vec3) : List (List Vec3) → CrackState × List PyVal
  | [] => (s, [])
  | dp :: rest =>
    let diff_curve := translatePts dp vecd1
    let (s1, sid) := s.newObj (.planarSrf diff_curve)
    let (s2, out) := diffLoop s1 vecd1 rest
    (s2, .guidList [sid] :: out)

/-- The crack-polygon extrusion loop (lines 66-81): translate each
crack polygon by `vec_d1`, extrude the copy straight from its start
point along `vec_delta`, and cap the far end with a planar surface on
the copy translated by the additional `vec_delta`.  Returns the
extrusion ids and the `rs.AddPlanarSrf` results (singleton id lists),
in order. -/
def crackLoop (s : CrackState) (vecd1 vecdelta : Vec3) :
    List (List Vec3) → CrackState × List Nat × List PyVal
  | [] => (s, [], [])
  | cp :: rest =>
    let deep_poly := translatePts cp vecd1
    let startPt := deep_poly.headD (0, 0, 0)
    let stopPt := vadd startPt vecdelta
    let (s1, ext) := s.newObj (.extrudedSolid deep_poly startPt stopPt)
    let (s2, cap) := s1.newObj (.planarSrf (translatePts deep_poly vecdelta))
    let (s3, out) := crackLoop s2 vecd1 vecdelta rest
    (s3, ext :: out.1, .guidList [cap] :: out.2)

/-- The inner (non-crack) polygon loop (lines 84-99): translate, extrude
along `vec_delta`, then `inner_extrusions.extend(cap)` flattens the cap
id list, so `inner_extrusions` interleaves extrusion and cap GUIDs. -/
def innerLoop (s : CrackState) (vecd1 vecdelta : Vec3) :
    List (List Vec3) → CrackState × List Nat
  | [] => (s, [])
  | sp :: rest =>
    let shifted := translatePts sp vecd1
    let s_pt := shifted.headD (0, 0, 0)
    let e_pt := vadd s_pt vecdelta
    let (s1, ext) := s.newObj (.extrudedSolid shifted s_pt e_pt)
    let (s2, cap) := s1.newObj (.planarSrf shifted)
    let (s3, ids) := innerLoop s2 vecd1 vecdelta rest
    (s3, ext :: cap :: ids)

/-- The tagging loop (lines 111-117 / 119-132): coerce each target to
a GUID and set its layer; non-coercible targets are silently skipped. -/
def tagTargets (s : CrackState) (layerName : String) : List PyVal → CrackState
  | [] => s
  | t :: rest =>
    match coerceguid t with
    | some i => tagTargets (s.setLayer i layerName) layerName rest
    | none => tagTargets s layerName rest

/-- Result of a successful `create_crack` call: the creation state and
the local collections of the source.  `extrusion` / `bottom_cap` in the
source's tagging block are the last loop values; here they are the last
elements of the corresponding lists.  `base_bottom_curve` is the bottom
curve as created at line 52 (`rs.CopyObject(base_poly, vec_d1)`);
`bottom_oriented` is the same curve after the direction match /
`rs.CurveSeam` adjustment, i.e. the curve the loft consumes. -/
structure CrackOut where
  state : CrackState
  loft_ids : List Nat
  extrusions : List Nat
  bottom_caps : List PyVal
  inner_extrusions : List Nat
  diff_surfaces : List PyVal
  base_bottom_curve : List Vec3
  bottom_oriented : List Vec3
deriving DecidableEq

/-- `create_crack` (crack_modeling.py, lines 25-141).  Inputs are the
vertex lists of the polyline arguments (`None`/non-polyline crack and
inside entries are modeled by empty lists, which the source's
truthiness/`IsPolyline` filter drops).  `none` models the early
`return None` branches. -/
def create_crack (env : CrackEnv) (s0 : CrackState)
    (crack_polys : List (List Vec3)) (crack_inside_polys : List (List Vec3))
    (base_poly : List Vec3) (offset_poly : List Vec3) (diff_polys : List (List Vec3))
    (inward_dir : Option Vec3) : Option CrackOut :=
  let cps := crack_polys.filter (fun bp => !bp.isEmpty)
  let sps := crack_inside_polys.filter (fun sp => !sp.isEmpty)
  if cps.isEmpty ∨ base_poly.isEmpty ∨ offset_poly.isEmpty then none
  else
    match (match inward_dir with
           | some v => some v
           | none => env.polyInward base_poly) with
    | none => none
    | some direction =>
      let d1 := env.d1
      let d2 := d1 + env.d2delta
      let vec_d1 := vscale d1 direction
      let vec_delta := vscale (d2 - d1) direction
      let (s1, diff_surfaces) := diffLoop s0 vec_d1 diff_polys
      let base_bottom_curve := translatePts base_poly vec_d1
      let bbc1 := if env.dirMatch offset_poly base_bottom_curve then base_bottom_curve
                  else base_bottom_curve.reverse
      let bbc2 := env.seam bbc1 (offset_poly.headD (0, 0, 0))
      let (s2, loft_id) := s1.newObj (.loftSrf offset_poly bbc2)
      let loft_ids : List Nat := [loft_id]
      let (s3, cout) := crackLoop s2 vec_d1 vec_delta cps
      let extrusions := cout.1
      let bottom_caps := cout.2
      let (s4, inner_extrusions) := innerLoop s3 vec_d1 vec_delta sps
      let s5 := if env.isLayer "crack_extrusion" then
          let targets := loft_ids.map PyVal.guid
            ++ (match extrusions.getLast? with
                | some e => [PyVal.guid e]
                | none => [])
            ++ (match bottom_caps.getLast? with
                | some c => [c]
                | none => [])
          tagTargets s4 "crack_extrusion" targets
        else s4
      let s6 := if env.isLayer "cube" then
          tagTargets (tagTargets s5 "cube" (inner_extrusions.map PyVal.guid)) "cube"
            diff_surfaces
        else s5
      some { state := s6, loft_ids := loft_ids, extrusions := extrusions,
             bottom_caps := bottom_caps, inner_extrusions := inner_extrusions,
             diff_surfaces := diff_surfaces,
             base_bottom_curve := base_bottom_curve, bottom_oriented := bbc2 }

/-- The oriented bottom curve consumed by the loft (lines 58-60 of
crack_modeling.py, as instantiated inside `create_crack`): the
`vec_d1`-translated base curve, reversed when its direction does not
match the offset curve, reparameterized at the offset curve's start. -/
def crackSeamCurve (env : CrackEnv) (base_poly offset_poly : List Vec3) (dir : Vec3) :
    List Vec3 :=
  env.seam
    (if env.dirMatch offset_poly (translatePts base_poly (vscale env.d1 dir)) then
      translatePts base_poly (vscale env.d1 dir)
    else (translatePts base_poly (vscale env.d1 dir)).reverse)
    (offset_poly.headD (0, 0, 0))

/-- The entries `addPieces` appends: split pieces under consecutive
fresh ids starting at `n` (used to state the behavior of
`split_face_and_keep_outer`). -/
def mkBlock (n : Nat) : List Brep → List Entry
  | [] => []
  | b :: rest => ⟨n, .srf b, "", true⟩ :: mkBlock (n + 1) rest

/-- Consecutive ids `[n, n + 1, ..., n + len - 1]`. -/
def idsFrom (n : Nat) : Nat → List Nat
  | 0 => []
  | len + 1 => n :: idsFrom (n + 1) len

/-- All object handles referenced by a crack-item bundle. -/
def itemIds (it : CrackItem) : List Nat :=
  it.offset_surface :: it.base_poly :: it.offset_poly ::
    (it.crack_polys ++ it.inside_polys ++ it.diff_polys)

/-- The document after `addPieces`: piece entries appended, counter
advanced. -/
def withPieces (d : Doc) (bs : List Brep) : Doc :=
  { d with objs := d.objs ++ mkBlock d.nextId bs, nextId := d.nextId + bs.length }

/-! ## Fixtures for witnesses and counterexamples -/

/-- A host whose boolean split always yields two fragments of areas
60 and 10. -/
def hostFrag : GeomHost :=
  { split := fun _ _ _ => [⟨some 60⟩, ⟨some 10⟩], planarBrep := fun _ => ⟨some 1⟩ }

/-- A host whose boolean split always fails (no fragments). -/
def hostNoSplit : GeomHost :=
  { split := fun _ _ _ => [], planarBrep := fun _ => ⟨some 1⟩ }

/-- A document holding a base face surface (id 0, area 100) and one
planar cutter surface (id 1, area 10). -/
def docSplit : Doc :=
  { objs := [⟨0, .srf ⟨some 100⟩, "", true⟩, ⟨1, .srf ⟨some 10⟩, "", true⟩],
    nextId := 2, tol := 0, layers := [] }

/-- A record with both `width_px` and `height_px` present and
non-zero, `width_px < height_px`. -/
def rec5 : FaceRecord :=
  { pixel_size_cm := some 1, width_px := some 100, height_px := some 200,
    contours := some [], severities := [], expanded_contours := [],
    base_contours := [], difference_contours := [] }

/-- A record whose dynamic sizing differs from the initial
`CUBE_LENGTH` value. -/
def rec9 : FaceRecord :=
  { pixel_size_cm := some 2, width_px := some 50, height_px := none,
    contours := some [], severities := [], expanded_contours := [],
    base_contours := [], difference_contours := [] }

/-- A record with one group: a single 3-point crack contour
(`parent = -1`), one-point base and erode contours, no difference
contours, severity CS1; pixel size 1 mm and width 1 px, so the
derived `CUBE_LENGTH` is 1. -/
def rec8 : FaceRecord :=
  { pixel_size_cm := some (1 / 10), width_px := some 1, height_px := none,
    contours := some [[⟨-1, [(0, 0), (1, 0), (1, 1)]⟩]],
    severities := ["CS1"],
    expanded_contours := [⟨-1, [(0, 0)]⟩],
    base_contours := [⟨-1, [(0, 0)]⟩],
    difference_contours := [[]] }

/-- A document holding one face surface (id 0, area 100) and the CS1
severity layer. -/
def docC8 : Doc :=
  { objs := [⟨0, .srf ⟨some 100⟩, "", true⟩], nextId := 1, tol := 0,
    layers := ["crack_CS1"] }

/-- A host whose boolean split yields fragments of areas 90 and 1 and
whose planar surfaces have area 7. -/
def hostC8 : GeomHost :=
  { split := fun _ _ _ => [⟨some 90⟩, ⟨some 1⟩], planarBrep := fun _ => ⟨some 7⟩ }

/-- The crack item `create_cube` emits for `rec8` on `docC8`:
offset surface 4, crack polyline 3, base polyline 2, erode
polyline 1, no inside or diff polylines. -/
def item8 : CrackItem := ⟨4, [3], [], 2, 1, []⟩

/-- The document after processing `rec8` on `docC8`: the original face
(id 0) was split and deleted, the losing fragment (id 6) was deleted,
and the winning outer fragment survives as id 5 — referenced by no
emitted handle. -/
def dF8 : Doc :=
  { objs := [⟨1, .polyline [(1 / 2, -(1 / 2), -(1 / 2))], "crack_CS1", true⟩,
             ⟨2, .polyline [(1 / 2, -(1 / 2), -(1 / 2))], "", true⟩,
             ⟨3, .polyline [(1 / 2, -(1 / 2), -(1 / 2)), (1 / 2, 1 / 2, -(1 / 2)),
               (1 / 2, 1 / 2, 1 / 2), (1 / 2, -(1 / 2), -(1 / 2))], "crack_CS1", true⟩,
             ⟨4, .srf ⟨some 7⟩, "crack_CS1", true⟩,
             ⟨5, .srf ⟨some 90⟩, "", true⟩],
    nextId := 7, tol := 0, layers := ["crack_CS1"] }

/-- A crack-modeling environment with the spec's concrete samples
`d1 = 1.0`, `d2 - d1 = 20.0`, trivial orientation oracles and no
layers. -/
def env1 : CrackEnv :=
  { dirMatch := fun _ _ => true, seam := fun c _ => c, polyInward := fun _ => none,
    isLayer := fun _ => false, d1 := 1, d2delta := 20 }

/-- The output of `create_crack` under `env1` on one crack polygon
`[(0,0,0),(1,0,0)]`, base/offset point `(0,0,0)`, inward direction
`(0,0,-1)`: loft 0, extrusion 1 (running from depth 1 to depth 21),
bottom cap 2. -/
def out1 : CrackOut :=
  { state := ⟨3, [⟨0, .loftSrf [(0, 0, 0)] [(0, 0, -1)], ""⟩,
      ⟨1, .extrudedSolid [(0, 0, -1), (1, 0, -1)] (0, 0, -1) (0, 0, -21), ""⟩,
      ⟨2, .planarSrf [(0, 0, -21), (1, 0, -21)], ""⟩]⟩,
    loft_ids := [0], extrusions := [1], bottom_caps := [.guidList [2]],
    inner_extrusions := [], diff_surfaces := [],
    base_bottom_curve := [(0, 0, -1)], bottom_oriented := [(0, 0, -1)] }

/-- A crack-modeling environment where every layer exists (in
particular the fixed `crack_extrusion` and `cube` layers and any
severity layer such as `crack_CS1`). -/
def env7 : CrackEnv :=
  { dirMatch := fun _ _ => true, seam := fun c _ => c, polyInward := fun _ => none,
    isLayer := fun _ => true, d1 := 1, d2delta := 20 }

/-- The output of `create_crack` under `env7` with two crack polygons,
one inside polygon and one diff polygon: diff surface 0 on `cube`,
loft 1 on `crack_extrusion`, first extrusion 2 and first cap 3 on the
ambient layer, last extrusion 4 and last cap 5 on `crack_extrusion`,
inner extrusion 6 and inner cap 7 on `cube`. -/
def out7 : CrackOut :=
  { state := ⟨8, [⟨0, .planarSrf [(6, 0, -1)], "cube"⟩,
      ⟨1, .loftSrf [(0, 0, 0)] [(0, 0, -1)], "crack_extrusion"⟩,
      ⟨2, .extrudedSolid [(0, 0, -1), (1, 0, -1)] (0, 0, -1) (0, 0, -21), ""⟩,
      ⟨3, .planarSrf [(0, 0, -21), (1, 0, -21)], ""⟩,
      ⟨4, .extrudedSolid [(2, 0, -1), (3, 0, -1)] (2, 0, -1) (2, 0, -21), "crack_extrusion"⟩,
      ⟨5, .planarSrf [(2, 0, -21), (3, 0, -21)], "crack_extrusion"⟩,
      ⟨6, .extrudedSolid [(5, 0, -1)] (5, 0, -1) (5, 0, -21), "cube"⟩,
      ⟨7, .planarSrf [(5, 0, -1)], "cube"⟩]⟩,
    loft_ids := [1], extrusions := [2, 4],
    bottom_caps := [.guidList [3], .guidList [5]],
    inner_extrusions := [6, 7], diff_surfaces := [.guidList [0]],
    base_bottom_curve := [(0, 0, -1)], bottom_oriented := [(0, 0, -1)] }

/-! ## Theorems -/

/-! ### Infrastructure: object-table lookups -/

/-- `find?` over a keyed map that preserves the key. -/
lemma find?_map_of_id {α : Type} (p : α → Bool) (f : α → α)
    (hp : ∀ e, p (f e) = p e) (l : List α) :
    (l.map f).find? p = (l.find? p).map f := by
  induction l with
  | nil => rfl
  | cons e rest ih =>
    by_cases h : p e = true
    · rw [List.map_cons, List.find?_cons_of_pos _ (by rw [hp]; exact h),
        List.find?_cons_of_pos _ h]
      rfl
    · rw [List.map_cons, List.find?_cons_of_neg _ (by rw [hp]; simpa using h),
        List.find?_cons_of_neg _ (by simpa using h)]
      exact ih

/-- `find?` by one key is unchanged by filtering another key out. -/
lemma find?_filter_ne {i j : Nat} (h : j ≠ i) (l : List Entry) :
    (l.filter (fun e => e.oid != i)).find? (fun e => e.oid == j) =
      l.find? (fun e => e.oid == j) := by
  induction l with
  | nil => rfl
  | cons e rest ih =>
    by_cases he : e.oid = i
    · rw [List.filter_cons, if_neg (by simp [he]),
        List.find?_cons_of_neg _ (by simp [he, Ne.symm h])]
      exact ih
    · rw [List.filter_cons, if_pos (by simp [he])]
      by_cases hj : e.oid = j
      · rw [List.find?_cons_of_pos _ (by simp [hj]), List.find?_cons_of_pos _ (by simp [hj])]
      · rw [List.find?_cons_of_neg _ (by simp [hj]), List.find?_cons_of_neg _ (by simp [hj])]
        exact ih

/-- A lookup above every stored id misses. -/
lemma findObj_none_of_ge (d : Doc) (hwf : d.WF) (i : Nat) (hi : d.nextId ≤ i) :
    d.findObj i = none := by
  apply List.find?_eq_none.mpr
  intro e he
  have := hwf e he
  simp only [beq_iff_eq]
  omega

/-- A successful lookup returns the key and only stored ids. -/
lemma findObj_some_facts {d : Doc} {i : Nat} {e : Entry} (h : d.findObj i = some e) :
    e.oid = i ∧ e ∈ d.objs :=
  ⟨by simpa using List.find?_some h, List.mem_of_find?_eq_some h⟩

/-- Looking up the id just deleted misses. -/
lemma findObj_deleteObj_self (d : Doc) (i : Nat) : (d.deleteObj i).findObj i = none := by
  apply List.find?_eq_none.mpr
  intro e he
  have := List.of_mem_filter he
  simpa using this

/-- Deleting one id leaves other lookups unchanged. -/
lemma findObj_deleteObj_of_ne (d : Doc) (i j : Nat) (h : j ≠ i) :
    (d.deleteObj i).findObj j = d.findObj j :=
  find?_filter_ne h d.objs

/-- `setVisible` only rewrites the targeted entry. -/
lemma findObj_setVisible (d : Doc) (i : Nat) (v : Bool) (j : Nat) :
    (d.setVisible i v).findObj j =
      (d.findObj j).map (fun e => if e.oid == i then { e with visible := v } else e) :=
  find?_map_of_id (fun (e : Entry) => e.oid == j)
    (fun (e : Entry) => if e.oid == i then { e with visible := v } else e)
    (fun e => by by_cases h : e.oid = i <;> simp [h]) d.objs

/-- `setLayer` only rewrites the targeted entry. -/
lemma findObj_setLayer (d : Doc) (i : Nat) (l : String) (j : Nat) :
    (d.setLayer i l).findObj j =
      (d.findObj j).map (fun e => if e.oid == i then { e with layer := l } else e) :=
  find?_map_of_id (fun (e : Entry) => e.oid == j)
    (fun (e : Entry) => if e.oid == i then { e with layer := l } else e)
    (fun e => by by_cases h : e.oid = i <;> simp [h]) d.objs

/-- Looking up the id just added finds the new entry. -/
lemma findObj_addObj_self (d : Doc) (g : Obj) (hwf : d.WF) :
    ((d.addObj g).1).findObj d.nextId = some ⟨d.nextId, g, "", true⟩ := by
  have h0 : List.find? (fun e => e.oid == d.nextId) d.objs = none :=
    findObj_none_of_ge d hwf d.nextId le_rfl
  show (d.objs ++ [Entry.mk d.nextId g "" true]).find? (fun e => e.oid == d.nextId) = _
  rw [List.find?_append, h0, List.find?_cons_of_pos _ (by simp)]
  rfl

/-- Adding an object leaves other lookups unchanged. -/
lemma findObj_addObj_of_ne (d : Doc) (g : Obj) (j : Nat) (h : j ≠ d.nextId) :
    ((d.addObj g).1).findObj j = d.findObj j := by
  show (d.objs ++ [Entry.mk d.nextId g "" true]).find? (fun e => e.oid == j) = _
  rw [List.find?_append]
  cases hf : d.objs.find? (fun e => e.oid == j) with
  | some e =>
    have h1 : d.findObj j = some e := hf
    rw [h1]
    rfl
  | none =>
    have h1 : d.findObj j = none := hf
    rw [h1]
    show List.find? (fun e => e.oid == j) [Entry.mk d.nextId g "" true] = none
    rw [List.find?_cons_of_neg _ (by simpa using Ne.symm h)]
    rfl

/-- `addObj` preserves well-formedness. -/
lemma WF_addObj (d : Doc) (g : Obj) (hwf : d.WF) : ((d.addObj g).1).WF := by
  intro e he
  show e.oid < d.nextId + 1
  rcases List.mem_append.mp he with h | h
  · exact Nat.lt_succ_of_lt (hwf e h)
  · have h1 := List.mem_singleton.mp h
    subst h1
    exact Nat.lt_succ_self _

/-- `deleteObj` preserves well-formedness. -/
lemma WF_deleteObj (d : Doc) (i : Nat) (hwf : d.WF) : (d.deleteObj i).WF :=
  fun e he => hwf e (List.mem_of_mem_filter he)

/-- `setLayer` preserves well-formedness. -/
lemma WF_setLayer (d : Doc) (i : Nat) (l : String) (hwf : d.WF) : (d.setLayer i l).WF := by
  intro e he
  rcases List.mem_map.mp he with ⟨e0, he0, hmap⟩
  have h0 := hwf e0 he0
  show e.oid < d.nextId
  by_cases h : e0.oid = i <;> rw [← hmap] <;> simpa [h] using h0

/-- `setVisible` preserves well-formedness. -/
lemma WF_setVisible (d : Doc) (i : Nat) (v : Bool) (hwf : d.WF) : (d.setVisible i v).WF := by
  intro e he
  rcases List.mem_map.mp he with ⟨e0, he0, hmap⟩
  have h0 := hwf e0 he0
  show e.oid < d.nextId
  by_cases h : e0.oid = i <;> rw [← hmap] <;> simpa [h] using h0

/-! ### Infrastructure: Python `max` and `list.index` -/

/-- The seed never exceeds a `foldl max`. -/
lemma le_foldl_max (l : List ℚ) (a : ℚ) : a ≤ l.foldl max a := by
  induction l generalizing a with
  | nil => exact le_rfl
  | cons b rest ih => exact le_trans (le_max_left a b) (ih (max a b))

/-- Every member is below a `foldl max`. -/
lemma mem_le_foldl_max (l : List ℚ) (a x : ℚ) (hx : x ∈ l) : x ≤ l.foldl max a := by
  induction l generalizing a with
  | nil => cases hx
  | cons b rest ih =>
    rcases List.mem_cons.mp hx with rfl | hmem
    · exact le_trans (le_max_right a x) (le_foldl_max rest (max a x))
    · exact ih (max a b) hmem

/-- A `foldl max` is the seed or a member. -/
lemma foldl_max_mem (l : List ℚ) (a : ℚ) : l.foldl max a = a ∨ l.foldl max a ∈ l := by
  induction l generalizing a with
  | nil => exact Or.inl rfl
  | cons b rest ih =>
    show List.foldl max (max a b) rest = a ∨ List.foldl max (max a b) rest ∈ b :: rest
    rcases ih (max a b) with h | h
    · rcases max_choice a b with hm | hm
      · rw [h, hm]; exact Or.inl rfl
      · rw [h, hm]; exact Or.inr (List.mem_cons_self b rest)
    · exact Or.inr (List.mem_cons_of_mem b h)

/-- `pyMax` dominates every member. -/
lemma le_pyMax (l : List ℚ) (x : ℚ) (hx : x ∈ l) : x ≤ pyMax l := by
  cases l with
  | nil => cases hx
  | cons a rest =>
    rcases List.mem_cons.mp hx with rfl | hm
    · exact le_foldl_max rest x
    · exact mem_le_foldl_max rest a x hm

/-- `pyMax` of a non-empty list is a member. -/
lemma pyMax_mem (l : List ℚ) (h : l ≠ []) : pyMax l ∈ l := by
  cases l with
  | nil => exact absurd rfl h
  | cons a rest =>
    rcases foldl_max_mem rest a with h1 | h1
    · show rest.foldl max a ∈ a :: rest
      rw [h1]; exact List.mem_cons_self a rest
    · exact List.mem_cons_of_mem a h1

/-- `pyIndex` of a member is in range. -/
lemma pyIndex_lt (l : List ℚ) (x : ℚ) (hx : x ∈ l) : pyIndex l x < l.length := by
  induction l with
  | nil => cases hx
  | cons a rest ih =>
    by_cases h : a = x
    · simp [pyIndex, h]
    · have hx' : x ∈ rest := by
        rcases List.mem_cons.mp hx with rfl | hm
        · exact absurd rfl h
        · exact hm
      simpa [pyIndex, h] using ih hx'

/-- `pyIndex` of a member points to its first occurrence. -/
lemma get?_pyIndex (l : List ℚ) (x : ℚ) (hx : x ∈ l) : l.get? (pyIndex l x) = some x := by
  induction l with
  | nil => cases hx
  | cons a rest ih =>
    by_cases h : a = x
    · simp [pyIndex, h]
    · have hx' : x ∈ rest := by
        rcases List.mem_cons.mp hx with rfl | hm
        · exact absurd rfl h
        · exact hm
      simpa [pyIndex, h] using ih hx'

/-! ### Infrastructure: split pieces and deletion loops -/

/-- `addPieces` in closed form: fresh consecutive ids, entries appended. -/
lemma addPieces_eq (d : Doc) (bs : List Brep) :
    addPieces d bs = (withPieces d bs, idsFrom d.nextId bs.length) := by
  unfold withPieces
  induction bs generalizing d with
  | nil =>
    show (d, []) = _
    simp [mkBlock, idsFrom]
  | cons b rest ih =>
    show (let r := addPieces ((d.addObj (.srf b)).1) rest; (r.1, d.nextId :: r.2)) = _
    rw [ih]
    dsimp only [Doc.addObj]
    have hobjs : (d.objs ++ [Entry.mk d.nextId (.srf b) "" true]) ++ mkBlock (d.nextId + 1) rest
        = d.objs ++ mkBlock d.nextId (b :: rest) := by
      rw [List.append_assoc]
      rfl
    have hnext : d.nextId + 1 + rest.length = d.nextId + (b :: rest).length := by
      rw [List.length_cons]
      omega
    rw [hobjs, hnext]
    rfl

/-- Lookups below the block's id range miss. -/
lemma mkBlock_find_lt (bs : List Brep) (n i : Nat) (h : i < n) :
    (mkBlock n bs).find? (fun e => e.oid == i) = none := by
  induction bs generalizing n with
  | nil => rfl
  | cons b rest ih =>
    rw [mkBlock, List.find?_cons_of_neg _ (by simp only [beq_iff_eq]; omega)]
    exact ih (n + 1) (by omega)

/-- Lookup of the `k`-th fresh id inside the block. -/
lemma mkBlock_find_at (bs : List Brep) (n k : Nat) (b : Brep) (h : bs.get? k = some b) :
    (mkBlock n bs).find? (fun e => e.oid == n + k) = some ⟨n + k, .srf b, "", true⟩ := by
  induction bs generalizing n k with
  | nil => simp at h
  | cons b0 rest ih =>
    cases k with
    | zero =>
      have hb : b0 = b := by simpa using h
      subst hb
      rw [mkBlock, List.find?_cons_of_pos _ (by simp)]
      rfl
    | succ k =>
      rw [mkBlock, List.find?_cons_of_neg _ (by simp only [beq_iff_eq]; omega)]
      have hgoal := ih (n + 1) k (by simpa using h)
      rw [show n + (k + 1) = (n + 1) + k from by omega]
      exact hgoal

/-- `idsFrom` has the requested length. -/
lemma idsFrom_length (n len : Nat) : (idsFrom n len).length = len := by
  induction len generalizing n with
  | zero => rfl
  | succ l ih =>
    show (idsFrom (n + 1) l).length + 1 = l + 1
    rw [ih]

/-- The `k`-th fresh id. -/
lemma idsFrom_get? (n len k : Nat) (h : k < len) : (idsFrom n len).get? k = some (n + k) := by
  induction len generalizing n k with
  | zero => omega
  | succ l ih =>
    cases k with
    | zero => rfl
    | succ k =>
      show (idsFrom (n + 1) l).get? k = some (n + (k + 1))
      rw [show n + (k + 1) = (n + 1) + k from by omega]
      exact ih (n + 1) k (by omega)

/-- Membership in `idsFrom` is the id interval. -/
lemma mem_idsFrom {t n len : Nat} : t ∈ idsFrom n len ↔ n ≤ t ∧ t < n + len := by
  induction len generalizing n with
  | zero =>
    show t ∈ ([] : List Nat) ↔ _
    simp
  | succ l ih =>
    show t ∈ n :: idsFrom (n + 1) l ↔ _
    rw [List.mem_cons, ih]
    omega

/-- Fresh ids are distinct. -/
lemma idsFrom_nodup (n len : Nat) : (idsFrom n len).Nodup := by
  induction len generalizing n with
  | zero => exact List.nodup_nil
  | succ l ih =>
    refine List.nodup_cons.mpr ⟨?_, ih (n + 1)⟩
    intro hmem
    rw [mem_idsFrom] at hmem
    omega

/-- The area loop over the fresh piece ids reads back the pieces'
areas, given that each fresh id resolves to its piece. -/
lemma pieceAreas_eq_of_lookup (d2 : Doc) (n : Nat) (bs : List Brep)
    (hlook : ∀ k b, bs.get? k = some b → d2.coercebrep (n + k) = some b) :
    pieceAreas d2 (idsFrom n bs.length) = bs.map (fun b => b.area.getD 0) := by
  induction bs generalizing n with
  | nil => rfl
  | cons b rest ih =>
    have h0 : d2.coercebrep n = some b := by
      have := hlook 0 b rfl
      simpa using this
    show ((n :: idsFrom (n + 1) rest.length).map _) = _
    rw [List.map_cons, List.map_cons]
    rw [h0]
    have htail := ih (n + 1) (fun k bk hk => by
      have := hlook (k + 1) bk (by simpa using hk)
      rwa [show n + (k + 1) = (n + 1) + k from by omega] at this)
    exact congrArg _ htail

/-- The piece-deletion loop never resurrects a missing object. -/
lemma deleteOthersAux_none (keep : Nat) (pids : List Nat) (t : Nat) :
    ∀ (d : Doc) (i : Nat), d.findObj t = none →
      (deleteOthersAux keep d i pids).findObj t = none := by
  induction pids with
  | nil => intro d i h; exact h
  | cons pid rest ih =>
    intro d i h
    show (deleteOthersAux keep (if i ≠ keep ∧ d.isObject pid = true then d.deleteObj pid else d)
      (i + 1) rest).findObj t = none
    by_cases hc : i ≠ keep ∧ d.isObject pid = true
    · rw [if_pos hc]
      apply ih
      by_cases hpt : t = pid
      · subst hpt; exact findObj_deleteObj_self d t
      · rw [findObj_deleteObj_of_ne d pid t hpt]; exact h
    · rw [if_neg hc]
      exact ih d (i + 1) h

/-- Ids outside the piece list are untouched by the deletion loop. -/
lemma deleteOthersAux_not_mem (keep : Nat) (t : Nat) :
    ∀ (pids : List Nat), t ∉ pids → ∀ (d : Doc) (i : Nat),
      (deleteOthersAux keep d i pids).findObj t = d.findObj t := by
  intro pids
  induction pids with
  | nil => intro _ d i; rfl
  | cons pid rest ih =>
    intro ht d i
    have ht' : t ∉ rest := fun hm => ht (List.mem_cons_of_mem _ hm)
    have htp : t ≠ pid := fun he => ht (he ▸ List.mem_cons_self _ _)
    show (deleteOthersAux keep (if i ≠ keep ∧ d.isObject pid = true then d.deleteObj pid else d)
      (i + 1) rest).findObj t = d.findObj t
    by_cases hc : i ≠ keep ∧ d.isObject pid = true
    · rw [if_pos hc, ih ht' _ (i + 1), findObj_deleteObj_of_ne d pid t htp]
    · rw [if_neg hc]
      exact ih ht' d (i + 1)

/-- A piece at a position other than `keep` is deleted by the loop. -/
lemma deleteOthersAux_mem_ne (keep : Nat) (t : Nat) :
    ∀ (pids : List Nat) (d : Doc) (i j : Nat), pids.get? j = some t → i + j ≠ keep →
      (deleteOthersAux keep d i pids).findObj t = none := by
  intro pids
  induction pids with
  | nil => intro d i j h _; simp at h
  | cons pid rest ih =>
    intro d i j h hne
    show (deleteOthersAux keep (if i ≠ keep ∧ d.isObject pid = true then d.deleteObj pid else d)
      (i + 1) rest).findObj t = none
    cases j with
    | zero =>
      have hpt : pid = t := by simpa using h
      subst hpt
      have hik : i ≠ keep := by simpa using hne
      by_cases hobj : d.isObject pid = true
      · rw [if_pos ⟨hik, hobj⟩]
        exact deleteOthersAux_none keep rest pid _ (i + 1) (findObj_deleteObj_self d pid)
      · rw [if_neg (by tauto)]
        apply deleteOthersAux_none
        unfold Doc.isObject at hobj
        cases hf : d.findObj pid with
        | none => rfl
        | some e => rw [hf] at hobj; simp at hobj
    | succ j =>
      have h' : rest.get? j = some t := by simpa using h
      have hne' : (i + 1) + j ≠ keep := by omega
      by_cases hc : i ≠ keep ∧ d.isObject pid = true
      · rw [if_pos hc]
        exact ih _ (i + 1) j h' hne'
      · rw [if_neg hc]
        exact ih d (i + 1) j h' hne'

/-- The piece at position `keep` survives the deletion loop. -/
lemma deleteOthersAux_keep (keep : Nat) (t : Nat) :
    ∀ (pids : List Nat), pids.Nodup → ∀ (d : Doc) (i j : Nat),
      pids.get? j = some t → i + j = keep →
      (deleteOthersAux keep d i pids).findObj t = d.findObj t := by
  intro pids
  induction pids with
  | nil => intro _ d i j h _; simp at h
  | cons pid rest ih =>
    intro hnd d i j h hkeep
    show (deleteOthersAux keep (if i ≠ keep ∧ d.isObject pid = true then d.deleteObj pid else d)
      (i + 1) rest).findObj t = d.findObj t
    cases j with
    | zero =>
      have hpt : pid = t := by simpa using h
      subst hpt
      have hik : i = keep := by omega
      rw [if_neg (by simp [hik])]
      exact deleteOthersAux_not_mem keep pid rest (List.nodup_cons.mp hnd).1 d (i + 1)
    | succ j =>
      have h' : rest.get? j = some t := by simpa using h
      have ht : pid ≠ t := by
        intro he
        subst he
        exact (List.nodup_cons.mp hnd).1 (List.get?_mem h')
      by_cases hc : i ≠ keep ∧ d.isObject pid = true
      · rw [if_pos hc, ih (List.nodup_cons.mp hnd).2 _ (i + 1) j h' (by omega)]
        exact findObj_deleteObj_of_ne d pid t (Ne.symm ht)
      · rw [if_neg hc]
        exact ih (List.nodup_cons.mp hnd).2 d (i + 1) j h' (by omega)

/-- The legacy cutter-deletion loop never resurrects a missing object. -/
lemma deleteCutters_none (cutters : List (Option Nat)) (t : Nat) :
    ∀ d : Doc, d.findObj t = none → (deleteCutters d cutters).findObj t = none := by
  induction cutters with
  | nil => intro d h; exact h
  | cons c rest ih =>
    intro d h
    cases c with
    | none => exact ih d h
    | some cid =>
      show (deleteCutters (if d.isObject cid then d.deleteObj cid else d) rest).findObj t = none
      by_cases hobj : d.isObject cid = true
      · rw [if_pos hobj]
        apply ih
        by_cases hct : t = cid
        · subst hct; exact findObj_deleteObj_self d t
        · rw [findObj_deleteObj_of_ne d cid t hct]; exact h
      · rw [if_neg hobj]
        exact ih d h

/-- Objects whose id is not a cutter id are untouched by the legacy
cutter-deletion loop. -/
lemma deleteCutters_not_mem (cutters : List (Option Nat)) (t : Nat)
    (ht : some t ∉ cutters) :
    ∀ d : Doc, (deleteCutters d cutters).findObj t = d.findObj t := by
  induction cutters with
  | nil => intro d; rfl
  | cons c rest ih =>
    have ht' : some t ∉ rest := fun hm => ht (List.mem_cons_of_mem _ hm)
    intro d
    cases c with
    | none => exact ih ht' d
    | some cid =>
      have htc : t ≠ cid := fun he => ht (by rw [he]; exact List.mem_cons_self _ _)
      show (deleteCutters (if d.isObject cid then d.deleteObj cid else d) rest).findObj t
        = d.findObj t
      by_cases hobj : d.isObject cid = true
      · rw [if_pos hobj, ih ht' _, findObj_deleteObj_of_ne d cid t htc]
      · rw [if_neg hobj]
        exact ih ht' d

/-- Every cutter id is gone after the legacy cutter-deletion loop. -/
lemma deleteCutters_mem (cutters : List (Option Nat)) (t : Nat)
    (ht : some t ∈ cutters) :
    ∀ d : Doc, (deleteCutters d cutters).findObj t = none := by
  induction cutters with
  | nil => cases ht
  | cons c rest ih =>
    intro d
    cases c with
    | none =>
      have ht' : some t ∈ rest := by
        rcases List.mem_cons.mp ht with h | h
        · cases h
        · exact h
      exact ih ht' d
    | some cid =>
      show (deleteCutters (if d.isObject cid then d.deleteObj cid else d) rest).findObj t = none
      by_cases hmem : some t ∈ rest
      · exact ih hmem _
      · have hct : cid = t := by
          rcases List.mem_cons.mp ht with h | h
          · exact (Option.some.injEq .. ▸ h.symm : some cid = some t) |> Option.some.inj
          · exact absurd h hmem
        subst hct
        apply deleteCutters_none
        by_cases hobj : d.isObject cid = true
        · rw [if_pos hobj]
          exact findObj_deleteObj_self d cid
        · rw [if_neg hobj]
          unfold Doc.isObject at hobj
          cases hf : d.findObj cid with
          | none => rfl
          | some e => rw [hf] at hobj; simp at hobj

/-! ### C4: RegionSplitter fallbacks -/

/-- C4 (confirmed): `split_face_and_keep_outer` returns the original
face unchanged (same document, same id, nothing deleted) whenever
splitting cannot proceed: empty cutter list; no valid cutters left
after the non-fatal skip of invalid ones; or a boolean split producing
no fragments. -/
theorem C4_split_noop_fallbacks (host : GeomHost) (d : Doc) (base : Nat)
    (cutters : List (Option Nat)) :
    (cutters = [] → split_face_and_keep_outer host d base cutters = (d, some base)) ∧
    (cutters.filterMap (fun cid => cid.bind d.coercebrep) = [] →
      split_face_and_keep_outer host d base cutters = (d, some base)) ∧
    (∀ bb, d.coercebrep base = some bb →
      host.split bb (cutters.filterMap (fun cid => cid.bind d.coercebrep)) d.tol = [] →
      split_face_and_keep_outer host d base cutters = (d, some base)) := by
  refine ⟨?_, ?_, ?_⟩
  · intro hc
    subst hc
    rfl
  · intro hv
    unfold split_face_and_keep_outer
    by_cases hce : cutters.isEmpty
    · rw [if_pos hce]
    · rw [if_neg hce]
      cases hb : d.coercebrep base with
      | none => rfl
      | some bb =>
        dsimp only
        rw [hv]
        rfl
  · intro bb hb hs
    unfold split_face_and_keep_outer
    by_cases hce : cutters.isEmpty
    · rw [if_pos hce]
    · rw [if_neg hce, hb]
      dsimp only
      by_cases hcb : (cutters.filterMap (fun cid => cid.bind d.coercebrep)).isEmpty
      · rw [if_pos hcb]
      · rw [if_neg hcb, hs]
        rfl

/-- Witness for C4: empty cutter list, an invalid cutter id, and a
fragment-free split on a concrete document. -/
theorem C4_split_noop_fallbacks_witness :
    split_face_and_keep_outer hostNoSplit docSplit 0 [] = (docSplit, some 0) ∧
    split_face_and_keep_outer hostNoSplit docSplit 0 [some 77] = (docSplit, some 0) ∧
    split_face_and_keep_outer hostNoSplit docSplit 0 [some 1] = (docSplit, some 0) :=
  ⟨(C4_split_noop_fallbacks hostNoSplit docSplit 0 []).1 rfl,
   (C4_split_noop_fallbacks hostNoSplit docSplit 0 [some 77]).2.1 (by decide),
   (C4_split_noop_fallbacks hostNoSplit docSplit 0 [some 1]).2.2 ⟨some 100⟩ (by decide) rfl⟩

/-! ### C2: RegionSplitter largest-area retention -/

/-- C2 counterexample: the pipeline variant of
`split_face_and_keep_outer` (src/utils_loc/cube_modeling.py) does NOT
delete the cutter objects — after splitting the concrete base face
(id 0) with the single valid cutter surface (id 1), the cutter is
still present in the document, contradicting the claim that the
cutters are deleted. -/
theorem C2_counterexample :
    ((split_face_and_keep_outer hostFrag docSplit 0 [some 1]).1).findObj 1 =
      some ⟨1, .srf ⟨some 10⟩, "", true⟩ := by
  decide

/-- `pieceAreas` has one entry per piece id. -/
lemma pieceAreas_length (d : Doc) (pids : List Nat) :
    (pieceAreas d pids).length = pids.length :=
  List.length_map ..

/-- Lookup of a piece id in the extended-and-base-deleted document. -/
lemma split_piece_findObj (d : Doc) (bs : List Brep) (base : Nat) (hwf : d.WF)
    (hbase : base < d.nextId) (k : Nat) (b : Brep) (hk : bs.get? k = some b) :
    ((withPieces d bs).deleteObj base).findObj (d.nextId + k) =
      some ⟨d.nextId + k, .srf b, "", true⟩ := by
  have hne : d.nextId + k ≠ base := by omega
  rw [findObj_deleteObj_of_ne _ _ _ hne]
  have hleft : List.find? (fun e => e.oid == d.nextId + k) d.objs = none :=
    findObj_none_of_ge d hwf _ (by omega)
  show (d.objs ++ mkBlock d.nextId bs).find? (fun e => e.oid == d.nextId + k) = _
  rw [List.find?_append, hleft, mkBlock_find_at bs d.nextId k b hk]
  rfl

/-- An existing lookup is unchanged by appending the piece block. -/
lemma findObj_withPieces (d : Doc) (bs : List Brep) (i : Nat) (e : Entry)
    (hf : d.findObj i = some e) :
    (withPieces d bs).findObj i = some e := by
  have hf1 : List.find? (fun e => e.oid == i) d.objs = some e := hf
  show (d.objs ++ mkBlock d.nextId bs).find? (fun e => e.oid == i) = some e
  rw [List.find?_append, hf1]
  rfl

/-- A valid Brep id is a stored id (hence below the counter). -/
lemma coercebrep_lt (d : Doc) (i : Nat) (b : Brep) (hwf : d.WF)
    (h : d.coercebrep i = some b) : i < d.nextId ∧ ∃ e, d.findObj i = some e := by
  unfold Doc.coercebrep at h
  cases hf : d.findObj i with
  | none => rw [hf] at h; cases h
  | some e =>
    have hfacts := findObj_some_facts hf
    have h1 : e.oid < d.nextId := hwf e hfacts.2
    rw [hfacts.1] at h1
    exact ⟨h1, e, rfl⟩

/-- The success path of the pipeline `split_face_and_keep_outer` in
closed form. -/
lemma split_face_outer_eq (host : GeomHost) (d : Doc) (base : Nat)
    (cutters : List (Option Nat)) (bb : Brep)
    (hbase : d.coercebrep base = some bb)
    (hcut : cutters.filterMap (fun cid => cid.bind d.coercebrep) ≠ [])
    (hfr : host.split bb (cutters.filterMap (fun cid => cid.bind d.coercebrep)) d.tol ≠ []) :
    split_face_and_keep_outer host d base cutters =
      (let frags := host.split bb (cutters.filterMap (fun cid => cid.bind d.coercebrep)) d.tol
       let d2 := (withPieces d frags).deleteObj base
       let areas := pieceAreas d2 (idsFrom d.nextId frags.length)
       let j := pyIndex areas (pyMax areas)
       (deleteOthersAux j d2 0 (idsFrom d.nextId frags.length),
        (idsFrom d.nextId frags.length).get? j)) := by
  have hc0 : cutters ≠ [] := by
    intro h
    rw [h] at hcut
    exact hcut rfl
  unfold split_face_and_keep_outer
  rw [if_neg (by simpa [List.isEmpty_iff] using hc0), hbase]
  dsimp only
  rw [if_neg (by simpa [List.isEmpty_iff] using hcut),
    if_neg (by simpa [List.isEmpty_iff] using hfr), addPieces_eq]
  dsimp only
  rw [if_neg ?isne]
  case isne =>
    intro hemp
    rw [List.isEmpty_iff] at hemp
    have hlen := congrArg List.length hemp
    rw [pieceAreas_length, idsFrom_length] at hlen
    exact hfr (List.length_eq_zero.mp hlen)

/-- The success path of the legacy `split_face_and_keep_outer` in
closed form (base deleted, then cutters deleted). -/
lemma split_face_outer_legacy_eq (host : GeomHost) (d : Doc) (base : Nat)
    (cutters : List (Option Nat)) (bb : Brep)
    (hbase : d.coercebrep base = some bb)
    (hcut : cutters.filterMap (fun cid => cid.bind d.coercebrep) ≠ [])
    (hfr : host.split bb (cutters.filterMap (fun cid => cid.bind d.coercebrep)) d.tol ≠ []) :
    split_face_and_keep_outer_legacy host d base cutters =
      (let frags := host.split bb (cutters.filterMap (fun cid => cid.bind d.coercebrep)) d.tol
       let d2 := deleteCutters ((withPieces d frags).deleteObj base) cutters
       let areas := pieceAreas d2 (idsFrom d.nextId frags.length)
       let j := pyIndex areas (pyMax areas)
       (deleteOthersAux j d2 0 (idsFrom d.nextId frags.length),
        (idsFrom d.nextId frags.length).get? j)) := by
  have hc0 : cutters ≠ [] := by
    intro h
    rw [h] at hcut
    exact hcut rfl
  unfold split_face_and_keep_outer_legacy
  rw [if_neg (by simpa [List.isEmpty_iff] using hc0), hbase]
  dsimp only
  rw [if_neg (by simpa [List.isEmpty_iff] using hcut),
    if_neg (by simpa [List.isEmpty_iff] using hfr), addPieces_eq]
  dsimp only
  rw [if_neg ?isne]
  case isne =>
    intro hemp
    rw [List.isEmpty_iff] at hemp
    have hlen := congrArg List.length hemp
    rw [pieceAreas_length, idsFrom_length] at hlen
    exact hfr (List.length_eq_zero.mp hlen)

/-- C2 (amended): with a valid base face, at least one valid cutter,
and a fragment-producing split, both variants of
`split_face_and_keep_outer` return the first fragment of maximum area
(added under the fresh id `nextId + j`), delete every other fragment
and the original base face; the cutter objects are deleted only by the
legacy variant (src/cube_modeling.py) — the pipeline variant
(src/utils_loc/cube_modeling.py) leaves every valid cutter in the
document untouched.  (`hcids` reflects that Rhino GUIDs never collide
with ids allocated later.) -/
theorem C2_split_largest_area_retention (host : GeomHost) (d : Doc) (base : Nat)
    (cutters : List (Option Nat)) (bb : Brep) (frags : List Brep) (areas : List ℚ) (j : Nat)
    (hwf : d.WF)
    (hbase : d.coercebrep base = some bb)
    (hcut : cutters.filterMap (fun cid => cid.bind d.coercebrep) ≠ [])
    (hfrags : frags = host.split bb (cutters.filterMap (fun cid => cid.bind d.coercebrep)) d.tol)
    (hfr : frags ≠ [])
    (hareas : areas = frags.map (fun b => b.area.getD 0))
    (hj : j = pyIndex areas (pyMax areas))
    (hcids : ∀ cid, some cid ∈ cutters → cid < d.nextId) :
    ∃ bj, frags.get? j = some bj ∧
      (∀ b ∈ frags, b.area.getD 0 ≤ bj.area.getD 0) ∧
      (split_face_and_keep_outer host d base cutters).2 = some (d.nextId + j) ∧
      ((split_face_and_keep_outer host d base cutters).1).findObj (d.nextId + j) =
        some ⟨d.nextId + j, .srf bj, "", true⟩ ∧
      (∀ k, k < frags.length → k ≠ j →
        ((split_face_and_keep_outer host d base cutters).1).findObj (d.nextId + k) = none) ∧
      ((split_face_and_keep_outer host d base cutters).1).findObj base = none ∧
      (∀ cid cb, some cid ∈ cutters → d.coercebrep cid = some cb → cid ≠ base →
        ((split_face_and_keep_outer host d base cutters).1).findObj cid = d.findObj cid) ∧
      (split_face_and_keep_outer_legacy host d base cutters).2 = some (d.nextId + j) ∧
      ((split_face_and_keep_outer_legacy host d base cutters).1).findObj (d.nextId + j) =
        some ⟨d.nextId + j, .srf bj, "", true⟩ ∧
      (∀ k, k < frags.length → k ≠ j →
        ((split_face_and_keep_outer_legacy host d base cutters).1).findObj (d.nextId + k)
          = none) ∧
      ((split_face_and_keep_outer_legacy host d base cutters).1).findObj base = none ∧
      (∀ cid, some cid ∈ cutters →
        ((split_face_and_keep_outer_legacy host d base cutters).1).findObj cid = none) := by
  have hbase_lt : base < d.nextId := (coercebrep_lt d base bb hwf hbase).1
  have hfr' : host.split bb (cutters.filterMap (fun cid => cid.bind d.coercebrep)) d.tol ≠ [] := by
    rw [← hfrags]; exact hfr
  have hanenil : areas ≠ [] := by
    rw [hareas]
    intro h
    exact hfr (List.map_eq_nil.mp h)
  have hm : pyMax areas ∈ areas := pyMax_mem areas hanenil
  have hjlt : j < areas.length := by rw [hj]; exact pyIndex_lt areas _ hm
  have hlenA : areas.length = frags.length := by rw [hareas]; exact List.length_map ..
  have hjlt' : j < frags.length := by rw [← hlenA]; exact hjlt
  have hget : areas.get? j = some (pyMax areas) := by rw [hj]; exact get?_pyIndex areas _ hm
  obtain ⟨bj, hbj⟩ : ∃ bj, frags.get? j = some bj := by
    cases hfg : frags.get? j with
    | none =>
      rw [List.get?_eq_none] at hfg
      omega
    | some b => exact ⟨b, rfl⟩
  have hget2 : areas.get? j = some (bj.area.getD 0) := by
    rw [hareas, List.get?_map, hbj]
    rfl
  have hbjval : bj.area.getD 0 = pyMax areas :=
    Option.some.inj (hget2.symm.trans hget)
  have hdom : ∀ b ∈ frags, b.area.getD 0 ≤ bj.area.getD 0 := by
    intro b hbmem
    rw [hbjval]
    apply le_pyMax
    rw [hareas]
    exact List.mem_map_of_mem _ hbmem
  -- the pipeline variant in closed form
  have hsplit := split_face_outer_eq host d base cutters bb hbase hcut hfr'
  rw [← hfrags] at hsplit
  dsimp only at hsplit
  have hlook : ∀ k b, frags.get? k = some b →
      ((withPieces d frags).deleteObj base).coercebrep (d.nextId + k) = some b := by
    intro k b hk
    unfold Doc.coercebrep
    rw [split_piece_findObj d frags base hwf hbase_lt k b hk]
  have hAeq : pieceAreas ((withPieces d frags).deleteObj base)
      (idsFrom d.nextId frags.length) = areas := by
    rw [hareas]
    exact pieceAreas_eq_of_lookup _ _ _ hlook
  rw [hAeq, ← hj] at hsplit
  -- the legacy variant in closed form
  have hsplitL := split_face_outer_legacy_eq host d base cutters bb hbase hcut hfr'
  rw [← hfrags] at hsplitL
  dsimp only at hsplitL
  have hfresh_not_cutter : ∀ k, some (d.nextId + k) ∉ cutters := by
    intro k hmem
    have := hcids _ hmem
    omega
  have hlookL : ∀ k b, frags.get? k = some b →
      (deleteCutters ((withPieces d frags).deleteObj base) cutters).coercebrep
        (d.nextId + k) = some b := by
    intro k b hk
    unfold Doc.coercebrep
    rw [deleteCutters_not_mem cutters _ (hfresh_not_cutter k) _,
      split_piece_findObj d frags base hwf hbase_lt k b hk]
  have hAeqL : pieceAreas (deleteCutters ((withPieces d frags).deleteObj base) cutters)
      (idsFrom d.nextId frags.length) = areas := by
    rw [hareas]
    exact pieceAreas_eq_of_lookup _ _ _ hlookL
  rw [hAeqL, ← hj] at hsplitL
  have hpidnodup := idsFrom_nodup d.nextId frags.length
  have hpidj := idsFrom_get? d.nextId frags.length j hjlt'
  refine ⟨bj, hbj, hdom, ?_, ?_, ?_, ?_, ?_, ?_, ?_, ?_, ?_, ?_⟩
  · rw [hsplit]
    exact hpidj
  · rw [hsplit]
    show (deleteOthersAux j ((withPieces d frags).deleteObj base) 0
      (idsFrom d.nextId frags.length)).findObj (d.nextId + j) = _
    rw [deleteOthersAux_keep j (d.nextId + j) _ hpidnodup _ 0 j hpidj (by omega)]
    exact split_piece_findObj d frags base hwf hbase_lt j bj hbj
  · intro k hk hkj
    rw [hsplit]
    exact deleteOthersAux_mem_ne j (d.nextId + k) _ _ 0 k
      (idsFrom_get? d.nextId frags.length k hk) (by omega)
  · rw [hsplit]
    exact deleteOthersAux_none j _ base _ 0
      (findObj_deleteObj_self (withPieces d frags) base)
  · intro cid cb hcidmem hcidco hcidne
    rw [hsplit]
    have hcid_lt : cid < d.nextId := (coercebrep_lt d cid cb hwf hcidco).1
    obtain ⟨e, he⟩ := (coercebrep_lt d cid cb hwf hcidco).2
    have hnm : cid ∉ idsFrom d.nextId frags.length := by
      rw [mem_idsFrom]
      omega
    show (deleteOthersAux j ((withPieces d frags).deleteObj base) 0
      (idsFrom d.nextId frags.length)).findObj cid = d.findObj cid
    rw [deleteOthersAux_not_mem j cid _ hnm _ 0,
      findObj_deleteObj_of_ne _ _ _ hcidne, findObj_withPieces d frags cid e he, he]
  · rw [hsplitL]
    exact hpidj
  · rw [hsplitL]
    show (deleteOthersAux j (deleteCutters ((withPieces d frags).deleteObj base) cutters) 0
      (idsFrom d.nextId frags.length)).findObj (d.nextId + j) = _
    rw [deleteOthersAux_keep j (d.nextId + j) _ hpidnodup _ 0 j hpidj (by omega),
      deleteCutters_not_mem cutters _ (hfresh_not_cutter j) _]
    exact split_piece_findObj d frags base hwf hbase_lt j bj hbj
  · intro k hk hkj
    rw [hsplitL]
    exact deleteOthersAux_mem_ne j (d.nextId + k) _ _ 0 k
      (idsFrom_get? d.nextId frags.length k hk) (by omega)
  · rw [hsplitL]
    exact deleteOthersAux_none j _ base _ 0
      (deleteCutters_none cutters base _
        (findObj_deleteObj_self (withPieces d frags) base))
  · intro cid hcidmem
    rw [hsplitL]
    exact deleteOthersAux_none j _ cid _ 0 (deleteCutters_mem cutters cid hcidmem _)

/-- Witness for C2 on the concrete split fixture: fragments of area 60
and 10; the outer piece (id 2, area 60) is returned and retained, the
other piece, the base face and (in the legacy variant) the cutter are
deleted, while the pipeline variant keeps the cutter. -/
theorem C2_split_largest_area_retention_witness :
    docSplit.coercebrep 0 = some ⟨some 100⟩ ∧
    (split_face_and_keep_outer hostFrag docSplit 0 [some 1]).2 = some 2 ∧
    ((split_face_and_keep_outer hostFrag docSplit 0 [some 1]).1).findObj 1 =
      docSplit.findObj 1 ∧
    ((split_face_and_keep_outer_legacy hostFrag docSplit 0 [some 1]).1).findObj 1 = none := by
  obtain ⟨bj, hbj, hdom, h1, h2, h3, h4, h5, h6, h7, h8, h9, h10⟩ :=
    C2_split_largest_area_retention hostFrag docSplit 0 [some 1] ⟨some 100⟩
      [⟨some 60⟩, ⟨some 10⟩] [60, 10] 0
      (by intro e he; fin_cases he <;> decide)
      (by decide) (by decide) (by decide) (by decide) (by decide) (by decide)
      (by
        intro cid hmem
        have hc : cid = 1 := by simpa using hmem
        subst hc
        decide)
  exact ⟨by decide, h1, h5 1 ⟨some 10⟩ (by decide) (by decide) (by decide), h10 1 (by decide)⟩

/-! ### C3: embed / project round-trip -/

/-- Point-level round trip, by exhausting the six face labels. -/
lemma map_pt_project (cl : ℚ) (uv : ℚ × ℚ) (face : String)
    (hface : face ∈ ["+x", "-x", "+y", "-y", "+z", "-z"]) :
    (map_pt_to_cube_face cl face uv).bind (project_out_fixed_axis face) = some uv := by
  fin_cases hface <;> rfl

/-- Lift a point-level left inverse through `mapOptList`. -/
lemma mapOptList_bind_mapOptList_id {α β : Type} (f : α → Option β) (g : β → Option α)
    (h : ∀ a, (f a).bind g = some a) (l : List α) :
    (mapOptList f l).bind (mapOptList g) = some l := by
  induction l with
  | nil => rfl
  | cons a rest ih =>
    have ha := h a
    cases hf : f a with
    | none => rw [hf] at ha; simp at ha
    | some b =>
      rw [hf] at ha
      simp only [Option.some_bind] at ha
      cases hrest : mapOptList f rest with
      | none => rw [hrest] at ih; simp at ih
      | some bs =>
        rw [hrest] at ih
        simp only [Option.some_bind] at ih
        simp [mapOptList, hf, hrest, ha, ih]

/-- C3 (confirmed): for every centered 2D point list and every one of
the six face directions, embedding with `map_2d_to_cube_face` and then
projecting out the fixed axis reproduces the input exactly. -/
theorem C3_embed_project_roundtrip (cl : ℚ) (pts : List (ℚ × ℚ)) (face : String)
    (hface : face ∈ ["+x", "-x", "+y", "-y", "+z", "-z"]) :
    (map_2d_to_cube_face cl pts face).bind
      (mapOptList (project_out_fixed_axis face)) = some pts :=
  mapOptList_bind_mapOptList_id _ _ (fun uv => map_pt_project cl uv face hface) pts

/-- Witness for C3 at a concrete face and point list. -/
theorem C3_embed_project_roundtrip_witness :
    ("+x" ∈ ["+x", "-x", "+y", "-y", "+z", "-z"]) ∧
    (map_2d_to_cube_face 500 [(3, 4), (5, 6)] "+x").bind
      (mapOptList (project_out_fixed_axis "+x")) = some [(3, 4), (5, 6)] :=
  ⟨by decide, C3_embed_project_roundtrip 500 [(3, 4), (5, 6)] "+x" (by decide)⟩

/-! ### C5: dynamic cube sizing -/

/-- C5 counterexample: for `width_px = 100`, `height_px = 200`,
`pixel_size_cm = 1` (so `pixel_size_mm = 10`), the code derives
`CUBE_LENGTH = width_px * pixel_size_mm = 1000`; neither `CUBE_LENGTH`
nor the half-extent `CUBE_LENGTH/2` equals
`max(width_px, height_px) * pixel_size` (in mm or cm), contradicting
the claimed `max` law. -/
theorem C5_counterexample :
    (read_contour_json rec5 500).2 = 1000 ∧
    (read_contour_json rec5 500).2 ≠ max (100 : ℚ) 200 * (1 * 10) ∧
    (read_contour_json rec5 500).2 ≠ max (100 : ℚ) 200 * 1 ∧
    (read_contour_json rec5 500).2 / 2 ≠ max (100 : ℚ) 200 * (1 * 10) ∧
    (read_contour_json rec5 500).2 / 2 ≠ max (100 : ℚ) 200 * 1 := by
  have h : (read_contour_json rec5 500).2 = 1000 := by
    norm_num [read_contour_json, rec5]
  refine ⟨h, ?_, ?_, ?_, ?_⟩ <;> rw [h] <;> norm_num

/-- C5 (amended): in the dynamic ingestion mode the module-level
`CUBE_LENGTH` is derived per-record as
`(width_px if present and non-zero else height_px) * pixel_size_mm`
(the face half-extent being `CUBE_LENGTH / 2`), not as
`max(width_px, height_px) * pixel_size`; ingestion fails with the
invalid-dimensions error, leaving the module state untouched, when
neither width nor height is present and non-zero. -/
theorem C5_dynamic_cube_sizing (rec : FaceRecord) (psc cl : ℚ)
    (hp : rec.pixel_size_cm = some psc) :
    (rec.width_px.getD 0 ≠ 0 →
      (read_contour_json rec cl).2 = rec.width_px.getD 0 * (psc * 10)) ∧
    (rec.width_px.getD 0 = 0 → rec.height_px.getD 0 ≠ 0 →
      (read_contour_json rec cl).2 = rec.height_px.getD 0 * (psc * 10)) ∧
    (rec.width_px.getD 0 = 0 → rec.height_px.getD 0 = 0 →
      read_contour_json rec cl = (.error .invalidDimensions, cl)) := by
  refine ⟨?_, ?_, ?_⟩
  · intro hw
    unfold read_contour_json
    rw [hp, if_pos hw]
    dsimp only
    rw [if_neg hw]
    cases rec.contours <;> rfl
  · intro hw hh
    unfold read_contour_json
    rw [hp, if_neg (not_not_intro hw)]
    dsimp only
    rw [if_neg hh]
    cases rec.contours <;> rfl
  · intro hw hh
    unfold read_contour_json
    rw [hp, if_neg (not_not_intro hw)]
    dsimp only
    rw [if_pos hh]

/-- Witness for C5 at a concrete record. -/
theorem C5_dynamic_cube_sizing_witness :
    rec5.pixel_size_cm = some 1 ∧ rec5.width_px.getD 0 ≠ 0 ∧
    (read_contour_json rec5 500).2 = rec5.width_px.getD 0 * ((1 : ℚ) * 10) :=
  ⟨rfl, by norm_num [rec5],
   (C5_dynamic_cube_sizing rec5 1 500 rfl).1 (by norm_num [rec5])⟩

/-! ### C6: parallel-family length invariant -/

/-- C6 (confirmed): `create_cube` checks the five-family length
equality right after ingestion, before any group is processed: a
violating record makes the face processing raise
`ContourCountMismatch` (the `assert` at line 286), and every run that
gets past ingestion without this error satisfies the equality. -/
theorem C6_contour_count_invariant (host : GeomHost) (d : Doc) (cl : ℚ)
    (face_dir : String) (face_id : Nat) (rec : FaceRecord)
    (fams : ContourFamilies) (cl1 : ℚ)
    (hing : read_contour_json rec cl = (.ok fams, cl1)) :
    (¬ (fams.contours.length = fams.severities.length ∧
        fams.severities.length = fams.erode_contours.length ∧
        fams.erode_contours.length = fams.base_contours.length ∧
        fams.base_contours.length = fams.diff_contours.length) →
      create_cube_face host d cl face_dir face_id rec = .error .contourCountMismatch) ∧
    (∀ out, create_cube_face host d cl face_dir face_id rec = .ok out →
      fams.contours.length = fams.severities.length ∧
      fams.severities.length = fams.erode_contours.length ∧
      fams.erode_contours.length = fams.base_contours.length ∧
      fams.base_contours.length = fams.diff_contours.length) := by
  constructor
  · intro hne
    unfold create_cube_face
    rw [hing]
    dsimp only
    rw [if_neg hne]
  · intro out hout
    by_cases hc : fams.contours.length = fams.severities.length ∧
        fams.severities.length = fams.erode_contours.length ∧
        fams.erode_contours.length = fams.base_contours.length ∧
        fams.base_contours.length = fams.diff_contours.length
    · exact hc
    · exfalso
      unfold create_cube_face at hout
      rw [hing] at hout
      dsimp only at hout
      rw [if_neg hc] at hout
      cases hout

/-- A record violating the parallel-family invariant: one erode
contour but empty `contours`, `severities`, `base_contours`,
`difference_contours`. -/
def rec6 : FaceRecord :=
  { pixel_size_cm := some (1 / 10), width_px := some 1, height_px := none,
    contours := some [], severities := [],
    expanded_contours := [⟨-1, [(0, 0), (1, 0), (1, 1)]⟩],
    base_contours := [], difference_contours := [] }

/-- The families `rec6` ingests to (pixel size 1 mm). -/
def fams6 : ContourFamilies :=
  { contours := [], base_contours := [],
    erode_contours := [⟨-1, [(0, 0), (1, 0), (1, 1)]⟩],
    diff_contours := [], severities := [] }

/-- Witness for C6: the mismatched record aborts face processing with
`ContourCountMismatch`. -/
theorem C6_contour_count_invariant_witness :
    read_contour_json rec6 500 = (.ok fams6, 1) ∧
    create_cube_face hostFrag docSplit 500 "+x" 0 rec6 = .error .contourCountMismatch := by
  have hing : read_contour_json rec6 500 = (.ok fams6, 1) := by
    norm_num [read_contour_json, rec6, scale_contour, fams6]
  exact ⟨hing,
    (C6_contour_count_invariant hostFrag docSplit 500 "+x" 0 rec6 fams6 1 hing).1
      (by decide)⟩

/-! ### C10: crack classification by the parent sentinel -/

/-- Known face labels always embed a point. -/
lemma map_pt_some (cl : ℚ) (uv : ℚ × ℚ) (face : String)
    (hface : face ∈ ["+x", "-x", "+y", "-y", "+z", "-z"]) :
    ∃ v, map_pt_to_cube_face cl face uv = some v := by
  fin_cases hface <;> exact ⟨_, rfl⟩

/-- Known face labels embed every point list, preserving length. -/
lemma map_2d_some (cl : ℚ) (pts : List (ℚ × ℚ)) (face : String)
    (hface : face ∈ ["+x", "-x", "+y", "-y", "+z", "-z"]) :
    ∃ pts3, map_2d_to_cube_face cl pts face = some pts3 ∧ pts3.length = pts.length := by
  induction pts with
  | nil => exact ⟨[], rfl, rfl⟩
  | cons p rest ih =>
    obtain ⟨v, hv⟩ := map_pt_some cl p face hface
    obtain ⟨pts3, h3, hlen⟩ := ih
    refine ⟨v :: pts3, ?_, by simp [hlen]⟩
    unfold map_2d_to_cube_face at h3 ⊢
    rw [mapOptList, hv, h3]

/-- `add_polygon_curve` on a non-empty list, in closed form. -/
lemma add_polygon_curve_cons (d : Doc) (p : Vec3) (rest : List Vec3) :
    add_polygon_curve d (p :: rest) =
      ((d.addObj (.polyline (closeCurvePts (p :: rest)))).1, some d.nextId) := rfl

/-- The property tying a polyline id produced by the classification
loop to its source contour: the id resolves to the closed polyline of
the contour's centered embedding. -/
def classifiedPoly (cl : ℚ) (face : String) (d1 : Doc) (pid : Nat) (c : Contour) : Prop :=
  ∃ pts3 e, map_2d_to_cube_face cl (center_2d_points cl c.points) face = some pts3 ∧
    d1.findObj pid = some e ∧ e.geom = .polyline (closeCurvePts pts3)

/-- Full characterization of the classification loop (lines 320-332)
when every contour has at least 3 points and the face is known: it
succeeds, only allocates fresh objects, and the crack/non-crack id
lists correspond pointwise (in order) to the contours with
`parent == -1` and `parent != -1` respectively. -/
lemma classify_contours_spec (cl : ℚ) (face : String)
    (hface : face ∈ ["+x", "-x", "+y", "-y", "+z", "-z"]) :
    ∀ (cs : List Contour) (d : Doc), d.WF → (∀ c ∈ cs, 3 ≤ c.points.length) →
    ∃ d1 crack noncrack, classify_contours cl face d cs = .ok (d1, crack, noncrack) ∧
      d1.WF ∧ d.nextId ≤ d1.nextId ∧ d1.tol = d.tol ∧ d1.layers = d.layers ∧
      (∀ i e, d.findObj i = some e → d1.findObj i = some e) ∧
      (∀ pid ∈ crack, d.nextId ≤ pid ∧ pid < d1.nextId) ∧
      (∀ pid ∈ noncrack, d.nextId ≤ pid ∧ pid < d1.nextId) ∧
      List.Forall₂ (classifiedPoly cl face d1) crack
        (cs.filter (fun c => c.parent == -1)) ∧
      List.Forall₂ (classifiedPoly cl face d1) noncrack
        (cs.filter (fun c => c.parent != -1)) := by
  intro cs
  induction cs with
  | nil =>
    intro d hwf _
    exact ⟨d, [], [], rfl, hwf, le_rfl, rfl, rfl, fun i e h => h,
      (by simp), (by simp), List.Forall₂.nil, List.Forall₂.nil⟩
  | cons c rest ih =>
    intro d hwf hpts
    obtain ⟨pts3, hmap, hlen⟩ :=
      map_2d_some cl (center_2d_points cl c.points) face hface
    have hclen : (center_2d_points cl c.points).length = c.points.length :=
      List.length_map ..
    have hlen3 : 3 ≤ pts3.length := by
      rw [hlen, hclen]
      exact hpts c (List.mem_cons_self ..)
    obtain ⟨p, prest, hp⟩ : ∃ p prest, pts3 = p :: prest := by
      cases pts3 with
      | nil => simp at hlen3
      | cons p prest => exact ⟨p, prest, rfl⟩
    have hwfA : ((d.addObj (.polyline (closeCurvePts pts3))).1).WF := WF_addObj d _ hwf
    obtain ⟨d1, crack, noncrack, heq, hwf1, hle, htol, hlay, hpres, hcrr, hncr, hF2c, hF2n⟩ :=
      ih ((d.addObj (.polyline (closeCurvePts pts3))).1) hwfA
        (fun c0 h0 => hpts c0 (List.mem_cons_of_mem _ h0))
    have hnextA : ((d.addObj (.polyline (closeCurvePts pts3))).1).nextId = d.nextId + 1 := rfl
    have hheadLookup : d1.findObj d.nextId =
        some ⟨d.nextId, .polyline (closeCurvePts pts3), "", true⟩ :=
      hpres _ _ (findObj_addObj_self d _ hwf)
    have hheadPred : classifiedPoly cl face d1 d.nextId c :=
      ⟨pts3, _, hmap, hheadLookup, rfl⟩
    have hpres' : ∀ i e, d.findObj i = some e → d1.findObj i = some e := by
      intro i e hie
      apply hpres
      have hi_lt : i < d.nextId := by
        have hfacts := findObj_some_facts hie
        have := hwf e hfacts.2
        omega
      rw [findObj_addObj_of_ne d _ i (by omega)]
      exact hie
    have hstep : classify_contours cl face d (c :: rest) =
        (if c.parent ≠ -1 then .ok (d1, crack, d.nextId :: noncrack)
         else .ok (d1, d.nextId :: crack, noncrack)) := by
      show ((match map_2d_to_cube_face cl (center_2d_points cl c.points) face with
        | none => .error (.unknownFace face)
        | some pts_3d =>
          if pts_3d.length < 3 then classify_contours cl face d rest
          else
            let r := add_polygon_curve d pts_3d
            match r.2 with
            | none => classify_contours cl face r.1 rest
            | some pid =>
              match classify_contours cl face r.1 rest with
              | .error e => .error e
              | .ok (d2, crack_ids, noncrack_ids) =>
                if c.parent ≠ -1 then .ok (d2, crack_ids, pid :: noncrack_ids)
                else .ok (d2, pid :: crack_ids, noncrack_ids)) :
        Except CubeError (Doc × List Nat × List Nat)) = _
      rw [hmap]
      dsimp only
      rw [if_neg (by omega), hp, add_polygon_curve_cons d p prest]
      dsimp only
      rw [← hp, heq]
    by_cases hpar : c.parent = -1
    · have hfc : (c :: rest).filter (fun c => c.parent == -1) =
          c :: rest.filter (fun c => c.parent == -1) := by
        rw [List.filter_cons, if_pos (by simpa using hpar)]
      have hfn : (c :: rest).filter (fun c => c.parent != -1) =
          rest.filter (fun c => c.parent != -1) := by
        rw [List.filter_cons, if_neg (by simpa using hpar)]
      refine ⟨d1, d.nextId :: crack, noncrack, ?_, hwf1, by omega, htol, hlay, hpres', ?_, ?_, ?_, ?_⟩
      · rw [hstep, if_neg (by simpa using hpar)]
      · intro pid hpid
        rcases List.mem_cons.mp hpid with rfl | hmem
        · omega
        · have := hcrr pid hmem
          rw [hnextA] at this
          omega
      · intro pid hpid
        have := hncr pid hpid
        rw [hnextA] at this
        omega
      · rw [hfc]
        exact List.Forall₂.cons hheadPred hF2c
      · rw [hfn]
        exact hF2n
    · have hfc : (c :: rest).filter (fun c => c.parent == -1) =
          rest.filter (fun c => c.parent == -1) := by
        rw [List.filter_cons, if_neg (by simpa using hpar)]
      have hfn : (c :: rest).filter (fun c => c.parent != -1) =
          c :: rest.filter (fun c => c.parent != -1) := by
        rw [List.filter_cons, if_pos (by simpa using hpar)]
      refine ⟨d1, crack, d.nextId :: noncrack, ?_, hwf1, by omega, htol, hlay, hpres', ?_, ?_, ?_, ?_⟩
      · rw [hstep, if_pos hpar]
      · intro pid hpid
        have := hcrr pid hpid
        rw [hnextA] at this
        omega
      · intro pid hpid
        rcases List.mem_cons.mp hpid with rfl | hmem
        · omega
        · have := hncr pid hmem
          rw [hnextA] at this
          omega
      · rw [hfc]
        exact hF2c
      · rw [hfn]
        exact List.Forall₂.cons hheadPred hF2n

/-- Contours with fewer than 3 mapped points are dropped by the
`len(pts_3d) < 3` guard without any other effect: the classification
loop computes exactly what it computes on the long contours alone —
same final document, same crack and non-crack lists.  (For the six
face labels the embedding preserves the point count, so "at least 3
mapped points" is "at least 3 points".) -/
lemma classify_contours_drop_short (cl : ℚ) (face : String)
    (hface : face ∈ ["+x", "-x", "+y", "-y", "+z", "-z"]) :
    ∀ (cs : List Contour) (d : Doc),
    classify_contours cl face d cs =
      classify_contours cl face d (cs.filter (fun c => 3 ≤ c.points.length)) := by
  intro cs
  induction cs with
  | nil =>
    intro d
    rfl
  | cons c rest ih =>
    intro d
    obtain ⟨pts3, hmap, hlen⟩ := map_2d_some cl (center_2d_points cl c.points) face hface
    have hclen : (center_2d_points cl c.points).length = c.points.length :=
      List.length_map ..
    rw [List.filter_cons]
    by_cases hlong : 3 ≤ c.points.length
    · rw [if_pos (by simpa using hlong)]
      simp only [classify_contours]
      rw [hmap]
      dsimp only
      have hge : ¬ pts3.length < 3 := by
        rw [hlen, hclen]
        omega
      rw [if_neg hge, if_neg hge]
      obtain ⟨p, prest, hp⟩ : ∃ p prest, pts3 = p :: prest := by
        cases pts3 with
        | nil =>
          rw [hclen] at hlen
          simp at hlen
          omega
        | cons p prest => exact ⟨p, prest, rfl⟩
      rw [hp, add_polygon_curve_cons]
      dsimp only
      rw [ih ((d.addObj (.polyline (closeCurvePts (p :: prest)))).1)]
    · rw [if_neg (by simpa using hlong)]
      simp only [classify_contours]
      rw [hmap]
      dsimp only
      rw [if_pos (by rw [hlen, hclen]; omega)]
      exact ih d

/-- `normalizeFace` fixes the canonical label. -/
lemma normalizeFace_px : normalizeFace "+x" = "+x" := by decide

/-- C10 counterexample: a contour with only 2 mapped points and
`parent = 0 ≠ -1` is dropped by the `len(pts_3d) < 3` guard (line
325-326) — the classification returns an empty non-crack list, so the
contour is NOT passed to extrusion as an inside polygon, contradicting
the claim's universal "every contour whose parent differs from -1". -/
theorem C10_counterexample :
    classify_contours 1 "+x" docSplit [⟨0, [(0, 0), (1, 1)]⟩] = .ok (docSplit, [], []) ∧
    ((0 : Int) ≠ -1) := by
  refine ⟨?_, by decide⟩
  norm_num [classify_contours, center_2d_points, map_2d_to_cube_face, mapOptList,
    map_pt_to_cube_face, normalizeFace_px]

/-- C10 (amended): in the classification loop of `create_cube`, for an
arbitrary (possibly mixed) contour group, contours with fewer than 3
mapped points are dropped without being classified — the loop returns
exactly what it returns on the long contours alone — and every contour
with at least 3 mapped points is classified as a crack polyline
exactly when its `parent` is the sentinel `-1` and as a non-crack
inside polyline exactly when it is not (pointwise, in order); a group
whose classification yields no crack polygons is skipped — it
contributes no crack item and no cutter, processing continuing with
the remaining groups. -/
theorem C10_crack_parent_sentinel (host : GeomHost) (cl : ℚ) (face : String) (d : Doc)
    (cs : List Contour) (hwf : d.WF)
    (hface : face ∈ ["+x", "-x", "+y", "-y", "+z", "-z"]) :
    (∃ d1 crack noncrack, classify_contours cl face d cs = .ok (d1, crack, noncrack) ∧
      classify_contours cl face d (cs.filter (fun c => 3 ≤ c.points.length))
        = .ok (d1, crack, noncrack) ∧
      List.Forall₂ (classifiedPoly cl face d1) crack
        ((cs.filter (fun c => 3 ≤ c.points.length)).filter (fun c => c.parent == -1)) ∧
      List.Forall₂ (classifiedPoly cl face d1) noncrack
        ((cs.filter (fun c => 3 ≤ c.points.length)).filter (fun c => c.parent != -1))) ∧
    (∀ (g : GroupIn) (rest : List GroupIn) (da db dc dd d4 : Doc) (e1 b1 : Nat)
        (eps bps : List Vec3) (dids noncrack1 : List Nat),
      map_2d_to_cube_face cl (center_2d_points cl g.erode_contour.points) face = some eps →
      add_polygon_curve da eps = (db, some e1) →
      map_2d_to_cube_face cl (center_2d_points cl g.base_contour.points) face = some bps →
      add_polygon_curve db bps = (dc, some b1) →
      addDiffPolys cl face dc g.diff_group = .ok (dd, dids) →
      dd.isLayer ("crack_" ++ g.severity) = true →
      classify_contours cl face dd g.contour_group = .ok (d4, [], noncrack1) →
      process_groups host cl face da (g :: rest) = process_groups host cl face d4 rest) := by
  constructor
  · have hdrop := classify_contours_drop_short cl face hface cs d
    have hlong : ∀ c ∈ cs.filter (fun c => 3 ≤ c.points.length), 3 ≤ c.points.length := by
      intro c hc
      simpa using List.of_mem_filter hc
    obtain ⟨d1, crack, noncrack, heq, _, _, _, _, _, _, _, hF2c, hF2n⟩ :=
      classify_contours_spec cl face hface (cs.filter (fun c => 3 ≤ c.points.length))
        d hwf hlong
    exact ⟨d1, crack, noncrack, hdrop.trans heq, heq, hF2c, hF2n⟩
  · intro g rest da db dc dd d4 e1 b1 eps bps dids noncrack1 hm1 ha1 hm2 ha2 hdp hl hc
    rw [process_groups.eq_def]
    dsimp only
    rw [hm1]
    dsimp only
    rw [ha1]
    dsimp only
    rw [hm2]
    dsimp only
    rw [ha2]
    dsimp only
    rw [hdp]
    dsimp only
    rw [if_pos hl, hc]
    dsimp only
    rw [if_pos (by rfl)]

/-- Witness for C10 at a concrete MIXED contour group: one crack
contour (`parent = -1`, 3 points), one nested contour (`parent = 5`,
3 points) and one short contour (`parent = 7`, only 2 points — to be
dropped). -/
theorem C10_crack_parent_sentinel_witness :
    ∃ d1 crack noncrack,
      classify_contours 1 "+x" docSplit
          [⟨-1, [(0, 0), (1, 0), (1, 1)]⟩, ⟨5, [(0, 0), (1, 0), (0, 1)]⟩,
           ⟨7, [(0, 0), (1, 1)]⟩] =
        .ok (d1, crack, noncrack) ∧
      classify_contours 1 "+x" docSplit
          ([(⟨-1, [(0, 0), (1, 0), (1, 1)]⟩ : Contour), ⟨5, [(0, 0), (1, 0), (0, 1)]⟩,
            ⟨7, [(0, 0), (1, 1)]⟩].filter (fun c => 3 ≤ c.points.length)) =
        .ok (d1, crack, noncrack) ∧
      List.Forall₂ (classifiedPoly 1 "+x" d1) crack
        (([(⟨-1, [(0, 0), (1, 0), (1, 1)]⟩ : Contour), ⟨5, [(0, 0), (1, 0), (0, 1)]⟩,
           ⟨7, [(0, 0), (1, 1)]⟩].filter (fun c => 3 ≤ c.points.length)).filter
          (fun c => c.parent == -1)) ∧
      List.Forall₂ (classifiedPoly 1 "+x" d1) noncrack
        (([(⟨-1, [(0, 0), (1, 0), (1, 1)]⟩ : Contour), ⟨5, [(0, 0), (1, 0), (0, 1)]⟩,
           ⟨7, [(0, 0), (1, 1)]⟩].filter (fun c => 3 ≤ c.points.length)).filter
          (fun c => c.parent != -1)) :=
  (C10_crack_parent_sentinel hostFrag 1 "+x" docSplit
    [⟨-1, [(0, 0), (1, 0), (1, 1)]⟩, ⟨5, [(0, 0), (1, 0), (0, 1)]⟩, ⟨7, [(0, 0), (1, 1)]⟩]
    (by intro e he; fin_cases he <;> decide) (by decide)).1

/-! ### C8: what create_cube emits -/

/-- Effect of `add_polygon_curve` on the document bookkeeping. -/
lemma add_polygon_curve_spec (d : Doc) (pts : List Vec3) (hwf : d.WF) :
    (add_polygon_curve d pts).1.WF ∧ d.nextId ≤ (add_polygon_curve d pts).1.nextId ∧
    (add_polygon_curve d pts).1.tol = d.tol ∧
    (add_polygon_curve d pts).1.layers = d.layers ∧
    (∀ pid, (add_polygon_curve d pts).2 = some pid →
      d.nextId ≤ pid ∧ pid < (add_polygon_curve d pts).1.nextId) := by
  cases pts with
  | nil => exact ⟨hwf, le_rfl, rfl, rfl, by intro pid h; cases h⟩
  | cons p rest =>
    refine ⟨WF_addObj d _ hwf, ?_, rfl, rfl, ?_⟩
    · show d.nextId ≤ d.nextId + 1
      omega
    · intro pid h
      have h2 : some d.nextId = some pid := h
      injection h2 with hpe
      rw [← hpe]
      show d.nextId ≤ d.nextId ∧ d.nextId < d.nextId + 1
      omega

/-- Effect of `addPlanarSrfFromCurve` on the document bookkeeping. -/
lemma addPlanarSrfFromCurve_spec (host : GeomHost) (d : Doc) (pid : Nat) (hwf : d.WF) :
    (addPlanarSrfFromCurve host d pid).1.WF ∧
    d.nextId ≤ (addPlanarSrfFromCurve host d pid).1.nextId ∧
    (addPlanarSrfFromCurve host d pid).1.tol = d.tol ∧
    (addPlanarSrfFromCurve host d pid).1.layers = d.layers ∧
    (∀ sid, (addPlanarSrfFromCurve host d pid).2 = some sid →
      d.nextId ≤ sid ∧ sid < (addPlanarSrfFromCurve host d pid).1.nextId) := by
  unfold addPlanarSrfFromCurve
  cases hf : d.findObj pid with
  | none =>
    dsimp only
    exact ⟨hwf, le_rfl, rfl, rfl, by intro sid h; cases h⟩
  | some e =>
    dsimp only
    cases hg : e.geom with
    | polyline pts =>
      dsimp only
      refine ⟨WF_addObj d _ hwf, ?_, rfl, rfl, ?_⟩
      · show d.nextId ≤ d.nextId + 1
        omega
      · intro sid h
        have h2 : some d.nextId = some sid := h
        injection h2 with hpe
        rw [← hpe]
        show d.nextId ≤ d.nextId ∧ d.nextId < d.nextId + 1
        omega
    | srf b =>
      dsimp only
      exact ⟨hwf, le_rfl, rfl, rfl, by intro sid h; cases h⟩
    | other =>
      dsimp only
      exact ⟨hwf, le_rfl, rfl, rfl, by intro sid h; cases h⟩

/-- The crack-poly layering fold changes no ids and no counter. -/
lemma setLayer_foldl_spec (l : String) :
    ∀ (ids : List Nat) (d : Doc),
    (ids.foldl (fun dd pid => dd.setLayer pid l) d).nextId = d.nextId ∧
    (ids.foldl (fun dd pid => dd.setLayer pid l) d).tol = d.tol ∧
    (ids.foldl (fun dd pid => dd.setLayer pid l) d).layers = d.layers ∧
    (d.WF → (ids.foldl (fun dd pid => dd.setLayer pid l) d).WF) := by
  intro ids
  induction ids with
  | nil => intro d; exact ⟨rfl, rfl, rfl, id⟩
  | cons i rest ih =>
    intro d
    have hstep := ih (d.setLayer i l)
    exact ⟨hstep.1, hstep.2.1, hstep.2.2.1,
      fun hwf => hstep.2.2.2 (WF_setLayer d i l hwf)⟩

/-- Unconditional bookkeeping facts about the classification loop. -/
lemma classify_contours_mono (cl : ℚ) (face : String) :
    ∀ (cs : List Contour) (d : Doc), d.WF →
    ∀ d1 crack noncrack, classify_contours cl face d cs = .ok (d1, crack, noncrack) →
    d1.WF ∧ d.nextId ≤ d1.nextId ∧ d1.tol = d.tol ∧ d1.layers = d.layers ∧
    (∀ pid ∈ crack, d.nextId ≤ pid ∧ pid < d1.nextId) ∧
    (∀ pid ∈ noncrack, d.nextId ≤ pid ∧ pid < d1.nextId) := by
  intro cs
  induction cs with
  | nil =>
    intro d hwf d1 crack noncrack h
    have h1 : (Except.ok (d, ([] : List Nat), ([] : List Nat)) :
        Except CubeError (Doc × List Nat × List Nat)) = .ok (d1, crack, noncrack) := h
    injection h1 with h2
    injection h2 with hd h3
    injection h3 with hcv hnv
    subst hd hcv hnv
    exact ⟨hwf, le_rfl, rfl, rfl, by simp, by simp⟩
  | cons c rest ih =>
    intro d hwf d1 crack noncrack h
    rw [classify_contours.eq_def] at h
    dsimp only at h
    cases hm : map_2d_to_cube_face cl (center_2d_points cl c.points) face with
    | none =>
      rw [hm] at h
      cases h
    | some pts3 =>
      rw [hm] at h
      dsimp only at h
      by_cases hlt : pts3.length < 3
      · rw [if_pos hlt] at h
        exact ih d hwf d1 crack noncrack h
      · rw [if_neg hlt] at h
        cases hap : add_polygon_curve d pts3 with
        | mk dA pidq =>
          rw [hap] at h
          dsimp only at h
          have hspec := add_polygon_curve_spec d pts3 hwf
          rw [hap] at hspec
          dsimp only at hspec
          cases pidq with
          | none =>
            have hind := ih dA hspec.1 d1 crack noncrack h
            refine ⟨hind.1, le_trans hspec.2.1 hind.2.1,
              hind.2.2.1.trans hspec.2.2.1, hind.2.2.2.1.trans hspec.2.2.2.1, ?_, ?_⟩
            · intro pid hp
              have hr := hind.2.2.2.2.1 pid hp
              have := hspec.2.1
              exact ⟨by omega, hr.2⟩
            · intro pid hp
              have hr := hind.2.2.2.2.2 pid hp
              have := hspec.2.1
              exact ⟨by omega, hr.2⟩
          | some pid =>
            cases hrec : classify_contours cl face dA rest with
            | error e =>
              rw [hrec] at h
              cases h
            | ok trip =>
              obtain ⟨d2, crackR, noncrackR⟩ := trip
              rw [hrec] at h
              dsimp only at h
              have hmono := ih dA hspec.1 d2 crackR noncrackR hrec
              have hpid_range := hspec.2.2.2.2 pid rfl
              have hAd : d.nextId ≤ dA.nextId := hspec.2.1
              have hAd2 : dA.nextId ≤ d2.nextId := hmono.2.1
              by_cases hpar : c.parent ≠ -1
              · rw [if_pos hpar] at h
                injection h with h2
                injection h2 with hd h3
                injection h3 with hcv hnv
                subst hd hcv hnv
                refine ⟨hmono.1, by omega,
                  hmono.2.2.1.trans hspec.2.2.1, hmono.2.2.2.1.trans hspec.2.2.2.1, ?_, ?_⟩
                · intro q hq
                  have hr := hmono.2.2.2.2.1 q hq
                  exact ⟨by omega, hr.2⟩
                · intro q hq
                  rcases List.mem_cons.mp hq with rfl | hqm
                  · have h1 := hpid_range.1
                    have h2 := hpid_range.2
                    exact ⟨h1, by omega⟩
                  · have hr := hmono.2.2.2.2.2 q hqm
                    exact ⟨by omega, hr.2⟩
              · rw [if_neg hpar] at h
                injection h with h2
                injection h2 with hd h3
                injection h3 with hcv hnv
                subst hd hcv hnv
                refine ⟨hmono.1, by omega,
                  hmono.2.2.1.trans hspec.2.2.1, hmono.2.2.2.1.trans hspec.2.2.2.1, ?_, ?_⟩
                · intro q hq
                  rcases List.mem_cons.mp hq with rfl | hqm
                  · have h1 := hpid_range.1
                    have h2 := hpid_range.2
                    exact ⟨h1, by omega⟩
                  · have hr := hmono.2.2.2.2.1 q hqm
                    exact ⟨by omega, hr.2⟩
                · intro q hq
                  have hr := hmono.2.2.2.2.2 q hq
                  exact ⟨by omega, hr.2⟩

/-- Unconditional bookkeeping facts about the diff-polygon loop. -/
lemma addDiffPolys_spec (cl : ℚ) (face : String) :
    ∀ (cs : List Contour) (d : Doc), d.WF →
    ∀ dd ids, addDiffPolys cl face d cs = .ok (dd, ids) →
    dd.WF ∧ d.nextId ≤ dd.nextId ∧ dd.tol = d.tol ∧ dd.layers = d.layers ∧
    (∀ i ∈ ids, d.nextId ≤ i ∧ i < dd.nextId) := by
  intro cs
  induction cs with
  | nil =>
    intro d hwf dd ids h
    have h1 : (Except.ok (d, ([] : List Nat)) :
        Except CubeError (Doc × List Nat)) = .ok (dd, ids) := h
    injection h1 with h2
    injection h2 with hd hi
    subst hd hi
    exact ⟨hwf, le_rfl, rfl, rfl, by simp⟩
  | cons c rest ih =>
    intro d hwf dd ids h
    rw [addDiffPolys.eq_def] at h
    dsimp only at h
    cases hm : map_2d_to_cube_face cl (center_2d_points cl c.points) face with
    | none =>
      rw [hm] at h
      cases h
    | some pts3 =>
      rw [hm] at h
      dsimp only at h
      cases hap : add_polygon_curve d pts3 with
      | mk dA pidq =>
        rw [hap] at h
        dsimp only at h
        have hspec := add_polygon_curve_spec d pts3 hwf
        rw [hap] at hspec
        dsimp only at hspec
        cases hrec : addDiffPolys cl face dA rest with
        | error e =>
          rw [hrec] at h
          cases h
        | ok pr =>
          obtain ⟨d2, ids2⟩ := pr
          rw [hrec] at h
          dsimp only at h
          have hind := ih dA hspec.1 d2 ids2 hrec
          cases pidq with
          | none =>
            injection h with h2
            injection h2 with hd hi
            subst hd hi
            refine ⟨hind.1, ?_, hind.2.2.1.trans hspec.2.2.1,
              hind.2.2.2.1.trans hspec.2.2.2.1, ?_⟩
            · have := hspec.2.1
              have := hind.2.1
              omega
            · intro i hi2
              have hr := hind.2.2.2.2 i hi2
              have := hspec.2.1
              exact ⟨by omega, hr.2⟩
          | some pid =>
            injection h with h2
            injection h2 with hd hi
            subst hd hi
            have hpr := hspec.2.2.2.2 pid rfl
            refine ⟨hind.1, ?_, hind.2.2.1.trans hspec.2.2.1,
              hind.2.2.2.1.trans hspec.2.2.2.1, ?_⟩
            · have := hspec.2.1
              have := hind.2.1
              omega
            · intro i hi2
              rcases List.mem_cons.mp hi2 with rfl | him
              · have := hpr.1
                have := hpr.2
                have := hind.2.1
                exact ⟨by omega, by omega⟩
              · have hr := hind.2.2.2.2 i him
                have := hspec.2.1
                exact ⟨by omega, hr.2⟩

/-- Group processing allocates all emitted handles (cutters and every
id inside a crack item) freshly: each lies in `[d.nextId, d1.nextId)`. -/
lemma process_groups_ids (host : GeomHost) (cl : ℚ) (face : String) :
    ∀ (gs : List GroupIn) (d : Doc), d.WF →
    ∀ d1 cutters items, process_groups host cl face d gs = .ok (d1, cutters, items) →
    d1.WF ∧ d.nextId ≤ d1.nextId ∧
    (∀ cid ∈ cutters, d.nextId ≤ cid ∧ cid < d1.nextId) ∧
    (∀ it ∈ items, ∀ i ∈ itemIds it, d.nextId ≤ i ∧ i < d1.nextId) := by
  intro gs
  induction gs with
  | nil =>
    intro d hwf d1 cutters items h
    have h1 : (Except.ok (d, ([] : List Nat), ([] : List CrackItem)) :
        Except CubeError (Doc × List Nat × List CrackItem)) = .ok (d1, cutters, items) := h
    injection h1 with h2
    injection h2 with hd h3
    injection h3 with hc hi
    subst hd hc hi
    exact ⟨hwf, le_rfl, by simp, by simp⟩
  | cons g rest ih =>
    intro d hwf d1 cutters items h
    rw [process_groups.eq_def] at h
    dsimp only at h
    cases hm1 : map_2d_to_cube_face cl (center_2d_points cl g.erode_contour.points) face with
    | none =>
      rw [hm1] at h
      cases h
    | some eps =>
      rw [hm1] at h
      dsimp only at h
      cases hap1 : add_polygon_curve d eps with
      | mk dB pid1 =>
        rw [hap1] at h
        dsimp only at h
        have hspec1 := add_polygon_curve_spec d eps hwf
        rw [hap1] at hspec1
        dsimp only at hspec1
        cases pid1 with
        | none =>
          have hind := ih dB hspec1.1 d1 cutters items h
          have h01 := hspec1.2.1
          refine ⟨hind.1, by have := hind.2.1; omega, ?_, ?_⟩
          · intro cid hc
            have hr := hind.2.2.1 cid hc
            exact ⟨by omega, hr.2⟩
          · intro it hit i hi
            have hr := hind.2.2.2 it hit i hi
            exact ⟨by omega, hr.2⟩
        | some e1 =>
          cases hm2 : map_2d_to_cube_face cl (center_2d_points cl g.base_contour.points) face with
          | none =>
            rw [hm2] at h
            cases h
          | some bps =>
            rw [hm2] at h
            dsimp only at h
            cases hap2 : add_polygon_curve dB bps with
            | mk dC pid2 =>
              rw [hap2] at h
              dsimp only at h
              have hspec2 := add_polygon_curve_spec dB bps hspec1.1
              rw [hap2] at hspec2
              dsimp only at hspec2
              have h01 := hspec1.2.1
              have h12 := hspec2.2.1
              cases pid2 with
              | none =>
                have hind := ih dC hspec2.1 d1 cutters items h
                refine ⟨hind.1, by have := hind.2.1; omega, ?_, ?_⟩
                · intro cid hc
                  have hr := hind.2.2.1 cid hc
                  exact ⟨by omega, hr.2⟩
                · intro it hit i hi
                  have hr := hind.2.2.2 it hit i hi
                  exact ⟨by omega, hr.2⟩
              | some b1 =>
                cases hdp : addDiffPolys cl face dC g.diff_group with
                | error e =>
                  rw [hdp] at h
                  cases h
                | ok pr =>
                  obtain ⟨dD, dids⟩ := pr
                  rw [hdp] at h
                  dsimp only at h
                  have hdspec := addDiffPolys_spec cl face g.diff_group dC hspec2.1 dD dids hdp
                  have h23 := hdspec.2.1
                  by_cases hl : dD.isLayer ("crack_" ++ g.severity) = true
                  · rw [if_pos hl] at h
                    cases hcl : classify_contours cl face dD g.contour_group with
                    | error e =>
                      rw [hcl] at h
                      cases h
                    | ok trip =>
                      obtain ⟨dE, crackIds, noncrackIds⟩ := trip
                      rw [hcl] at h
                      dsimp only at h
                      have hclm := classify_contours_mono cl face g.contour_group dD
                        hdspec.1 dE crackIds noncrackIds hcl
                      have h34 := hclm.2.1
                      by_cases hemp : crackIds.isEmpty = true
                      · rw [if_pos hemp] at h
                        have hind := ih dE hclm.1 d1 cutters items h
                        refine ⟨hind.1, by have := hind.2.1; omega, ?_, ?_⟩
                        · intro cid hc
                          have hr := hind.2.2.1 cid hc
                          exact ⟨by omega, hr.2⟩
                        · intro it hit i hi
                          have hr := hind.2.2.2 it hit i hi
                          exact ⟨by omega, hr.2⟩
                      · rw [if_neg hemp] at h
                        have hfold := setLayer_foldl_spec ("crack_" ++ g.severity) crackIds dE
                        have hwf6 : (((crackIds.foldl (fun dd pid =>
                            dd.setLayer pid ("crack_" ++ g.severity)) dE)).setLayer e1
                            ("crack_" ++ g.severity)).WF :=
                          WF_setLayer _ _ _ (hfold.2.2.2 hclm.1)
                        cases hsrf : addPlanarSrfFromCurve host
                            ((crackIds.foldl (fun dd pid =>
                              dd.setLayer pid ("crack_" ++ g.severity)) dE).setLayer e1
                              ("crack_" ++ g.severity)) e1 with
                        | mk dG srfq =>
                          rw [hsrf] at h
                          dsimp only at h
                          have hsspec := addPlanarSrfFromCurve_spec host _ e1 hwf6
                          rw [hsrf] at hsspec
                          dsimp only at hsspec
                          have h46 : ((crackIds.foldl (fun dd pid =>
                              dd.setLayer pid ("crack_" ++ g.severity)) dE).setLayer e1
                              ("crack_" ++ g.severity)).nextId = dE.nextId := hfold.1
                          have h6G : dE.nextId ≤ dG.nextId := by
                            have hx := hsspec.2.1
                            rw [h46] at hx
                            exact hx
                          cases srfq with
                          | none =>
                            have hind := ih dG hsspec.1 d1 cutters items h
                            refine ⟨hind.1, by have := hind.2.1; omega, ?_, ?_⟩
                            · intro cid hc
                              have hr := hind.2.2.1 cid hc
                              exact ⟨by omega, hr.2⟩
                            · intro it hit i hi
                              have hr := hind.2.2.2 it hit i hi
                              exact ⟨by omega, hr.2⟩
                          | some sid =>
                            dsimp only at h
                            cases hrec : process_groups host cl face
                                (dG.setLayer sid ("crack_" ++ g.severity)) rest with
                            | error e =>
                              rw [hrec] at h
                              cases h
                            | ok trip2 =>
                              obtain ⟨dZ, cutR, itemsR⟩ := trip2
                              rw [hrec] at h
                              dsimp only at h
                              injection h with h2
                              injection h2 with hdz h3
                              injection h3 with hcut hitems
                              subst hdz hcut hitems
                              have hind := ih _ (WF_setLayer _ _ _ hsspec.1) dZ cutR itemsR hrec
                              have hGZ : dG.nextId ≤ dZ.nextId := hind.2.1
                              have hsidr := hsspec.2.2.2.2 sid rfl
                              have hsid1 : dE.nextId ≤ sid := by
                                have := hsidr.1
                                rw [h46] at this
                                exact this
                              have hsid2 : sid < dG.nextId := hsidr.2
                              have he1r := hspec1.2.2.2.2 e1 rfl
                              have hb1r := hspec2.2.2.2.2 b1 rfl
                              have hGs : (dG.setLayer sid ("crack_" ++ g.severity)).nextId
                                  = dG.nextId := rfl
                              refine ⟨hind.1, by omega, ?_, ?_⟩
                              · intro cid hc
                                rcases List.mem_cons.mp hc with rfl | hcm
                                · exact ⟨by omega, by omega⟩
                                · have hr := hind.2.2.1 cid hcm
                                  exact ⟨by omega, hr.2⟩
                              · intro it hit i hi
                                rcases List.mem_cons.mp hit with rfl | hitm
                                · simp only [itemIds] at hi
                                  rcases List.mem_cons.mp hi with rfl | hi
                                  · exact ⟨by omega, by omega⟩
                                  rcases List.mem_cons.mp hi with rfl | hi
                                  · have := hb1r.1
                                    have := hb1r.2
                                    exact ⟨by omega, by omega⟩
                                  rcases List.mem_cons.mp hi with rfl | hi
                                  · have := he1r.1
                                    have := he1r.2
                                    exact ⟨by omega, by omega⟩
                                  rcases List.mem_append.mp hi with hi | hi
                                  · rcases List.mem_append.mp hi with hi | hi
                                    · have hr := hclm.2.2.2.2.1 i hi
                                      have := hr.1
                                      have := hr.2
                                      exact ⟨by omega, by omega⟩
                                    · have hr := hclm.2.2.2.2.2 i hi
                                      have := hr.1
                                      have := hr.2
                                      exact ⟨by omega, by omega⟩
                                  · have hr := hdspec.2.2.2.2 i hi
                                    have := hr.1
                                    have := hr.2
                                    exact ⟨by omega, by omega⟩
                                · have hr := hind.2.2.2 it hitm i hi
                                  exact ⟨by omega, hr.2⟩
                  · rw [if_neg hl] at h
                    cases h

/-- The deletion loop never touches the fresh-id counter. -/
lemma deleteOthersAux_nextId (keep : Nat) :
    ∀ (pids : List Nat) (d : Doc) (i : Nat),
    (deleteOthersAux keep d i pids).nextId = d.nextId := by
  intro pids
  induction pids with
  | nil =>
    intro d i
    rfl
  | cons p rest ih =>
    intro d i
    rw [deleteOthersAux]
    rw [ih]
    split <;> rfl

/-- Whatever happens inside `split_face_and_keep_outer`, the returned
outer handle is the original base face, absent, or a freshly allocated
piece id; the counter never shrinks. -/
lemma split_result_cases (host : GeomHost) (d : Doc) (base : Nat)
    (cutters : List (Option Nat)) (d2 : Doc) (res : Option Nat)
    (h : split_face_and_keep_outer host d base cutters = (d2, res)) :
    d.nextId ≤ d2.nextId ∧
    (res = some base ∨ res = none ∨
      ∃ r, res = some r ∧ d.nextId ≤ r ∧ r < d2.nextId) := by
  unfold split_face_and_keep_outer at h
  by_cases h1 : cutters.isEmpty = true
  · rw [if_pos h1] at h
    injection h with hd hr
    subst hd
    exact ⟨le_rfl, .inl hr.symm⟩
  · rw [if_neg h1] at h
    cases hb : d.coercebrep base with
    | none =>
      rw [hb] at h
      injection h with hd hr
      subst hd
      exact ⟨le_rfl, .inl hr.symm⟩
    | some bb =>
      rw [hb] at h
      dsimp only at h
      by_cases h2 : (cutters.filterMap fun cid => cid.bind d.coercebrep).isEmpty = true
      · rw [if_pos h2] at h
        injection h with hd hr
        subst hd
        exact ⟨le_rfl, .inl hr.symm⟩
      · rw [if_neg h2] at h
        by_cases h3 : (host.split bb
            (cutters.filterMap fun cid => cid.bind d.coercebrep) d.tol).isEmpty = true
        · rw [if_pos h3] at h
          injection h with hd hr
          subst hd
          exact ⟨le_rfl, .inl hr.symm⟩
        · rw [if_neg h3] at h
          rw [addPieces_eq] at h
          dsimp only at h
          by_cases h4 : (pieceAreas ((withPieces d (host.split bb
              (cutters.filterMap fun cid => cid.bind d.coercebrep) d.tol)).deleteObj base)
              (idsFrom d.nextId (host.split bb
                (cutters.filterMap fun cid => cid.bind d.coercebrep) d.tol).length)).isEmpty
              = true
          · rw [if_pos h4] at h
            injection h with hd hr
            subst hd
            refine ⟨?_, .inr (.inl hr.symm)⟩
            show d.nextId ≤ d.nextId + (host.split bb
              (cutters.filterMap fun cid => cid.bind d.coercebrep) d.tol).length
            omega
          · rw [if_neg h4] at h
            injection h with hd hr
            have hareas : (pieceAreas ((withPieces d (host.split bb
                (cutters.filterMap fun cid => cid.bind d.coercebrep) d.tol)).deleteObj base)
                (idsFrom d.nextId (host.split bb
                  (cutters.filterMap fun cid => cid.bind d.coercebrep) d.tol).length)) ≠ [] := by
              simpa [List.isEmpty_iff] using h4
            have hjlt := pyIndex_lt _ _ (pyMax_mem _ hareas)
            rw [pieceAreas_length, idsFrom_length] at hjlt
            rw [idsFrom_get? _ _ _ hjlt] at hr
            have hnext : d2.nextId = d.nextId + (host.split bb
                (cutters.filterMap fun cid => cid.bind d.coercebrep) d.tol).length := by
              rw [← hd, deleteOthersAux_nextId]
              rfl
            refine ⟨by omega, .inr (.inr ⟨_, hr.symm, by omega, by omega⟩)⟩

/-- C8 (amended): the per-face body of `create_cube` emits only the
per-group crack-item bundles.  Every handle inside an emitted bundle
is freshly allocated during group processing (so distinct from the
original face), and the retained outer-face handle computed by
`split_face_and_keep_outer` at the end of the face body is discarded:
the run decomposes into ingestion, group processing and the split, and
whenever the split returns an outer handle, that handle appears in no
emitted bundle. -/
theorem C8_outer_face_discarded (host : GeomHost) (d : Doc) (cl : ℚ)
    (face_dir : String) (face_id : Nat) (rec : FaceRecord)
    (d3 : Doc) (cl1 : ℚ) (items : List CrackItem)
    (hwf : d.WF) (hface : face_id < d.nextId)
    (hrun : create_cube_face host d cl face_dir face_id rec = .ok (d3, cl1, items)) :
    (∀ it ∈ items, ∀ i ∈ itemIds it, d.nextId ≤ i ∧ i ≠ face_id) ∧
    ∃ fams d1 cutters d2 outer,
      read_contour_json rec cl = (.ok fams, cl1) ∧
      process_groups host cl1 face_dir (d.setVisible face_id false)
        (zipGroups fams.contours fams.base_contours fams.erode_contours
          fams.diff_contours fams.severities) = .ok (d1, cutters, items) ∧
      split_face_and_keep_outer host d1 face_id (cutters.map some) = (d2, outer) ∧
      d3 = d2.setVisible face_id true ∧
      (∀ r, outer = some r → ∀ it ∈ items, r ∉ itemIds it) := by
  unfold create_cube_face at hrun
  cases hr : read_contour_json rec cl with
  | mk ex cl' =>
    rw [hr] at hrun
    cases ex with
    | error e =>
      cases hrun
    | ok fams =>
      dsimp only at hrun
      by_cases hlen : fams.contours.length = fams.severities.length ∧
          fams.severities.length = fams.erode_contours.length ∧
          fams.erode_contours.length = fams.base_contours.length ∧
          fams.base_contours.length = fams.diff_contours.length
      · rw [if_pos hlen] at hrun
        cases hpg : process_groups host cl' face_dir (d.setVisible face_id false)
            (zipGroups fams.contours fams.base_contours fams.erode_contours
              fams.diff_contours fams.severities) with
        | error e =>
          rw [hpg] at hrun
          cases hrun
        | ok trip =>
          obtain ⟨d1, cutters, items'⟩ := trip
          rw [hpg] at hrun
          dsimp only at hrun
          cases hsp : split_face_and_keep_outer host d1 face_id (cutters.map some) with
          | mk d2 outer =>
            rw [hsp] at hrun
            dsimp only at hrun
            injection hrun with h2
            injection h2 with hd3 h3
            injection h3 with hcl hitems
            subst hd3 hcl hitems
            have hwf0 : (d.setVisible face_id false).WF := WF_setVisible d face_id false hwf
            have hids := process_groups_ids host cl' face_dir
              (zipGroups fams.contours fams.base_contours fams.erode_contours
                fams.diff_contours fams.severities)
              (d.setVisible face_id false) hwf0 d1 cutters items' hpg
            have h0 : (d.setVisible face_id false).nextId = d.nextId := rfl
            have hsrc := split_result_cases host d1 face_id (cutters.map some) d2 outer hsp
            constructor
            · intro it hit i hi
              have hb := hids.2.2.2 it hit i hi
              exact ⟨by omega, by omega⟩
            · refine ⟨fams, d1, cutters, d2, outer, rfl, hpg, hsp, rfl, ?_⟩
              intro r hro it hit hmem
              have hb := hids.2.2.2 it hit r hmem
              rcases hsrc.2 with hc | hc | ⟨r', hr', hr1, hr2⟩
              · have hfr : face_id = r := by
                  have := hc.symm.trans hro
                  injection this
                omega
              · rw [hc] at hro
                cases hro
              · have hrr : r' = r := by
                  have := hr'.symm.trans hro
                  injection this
                have := hids.2.1
                omega
      · rw [if_neg hlen] at hrun
        cases hrun

/-- The severity CS1 names the layer `crack_CS1`. -/
lemma append_crack_CS1 : "crack_" ++ "CS1" = "crack_CS1" := rfl

/-- The complete run of the face body on the `rec8`/`docC8`/`hostC8`
fixture: one crack item is emitted and the final document is `dF8`. -/
lemma run8_face :
    create_cube_face hostC8 docC8 500 "+x" 0 rec8 = .ok (dF8, 1, [item8]) := by
  norm_num [create_cube_face, read_contour_json, rec8, scale_contour, zipGroups,
    process_groups, map_2d_to_cube_face, mapOptList, map_pt_to_cube_face, normalizeFace_px,
    center_2d_points, add_polygon_curve, closeCurvePts, Doc.addObj, Doc.setVisible,
    Doc.setLayer, Doc.isLayer, addDiffPolys, classify_contours, addPlanarSrfFromCurve,
    Doc.findObj, Doc.coercebrep, split_face_and_keep_outer, addPieces, pieceAreas,
    deleteOthersAux, Doc.deleteObj, Doc.isObject, pyMax, pyIndex, docC8, hostC8, dF8, item8,
    append_crack_CS1, Option.some_ne_none]

/-- C8 counterexample: on the `rec8` fixture `create_cube` retains an
outer fragment (id 5) in the final document, but the emitted value
contains only the crack-item bundle — no handle of the retained outer
face (5 is referenced by no emitted handle), and the original face
(id 0) has been deleted. -/
theorem C8_counterexample :
    create_cube hostC8 docC8 500 [("+x", 0)] [rec8] = .ok (dF8, 1, [("+x", [item8])]) ∧
    dF8.findObj 5 = some ⟨5, .srf ⟨some 90⟩, "", true⟩ ∧
    5 ∉ itemIds item8 ∧
    dF8.findObj 0 = none := by
  refine ⟨?_, by decide, by decide, by decide⟩
  rw [create_cube, create_cube_loop, run8_face]
  dsimp only
  norm_num [create_cube_loop, deleteFaces, Doc.isObject, Doc.findObj, dF8]

/-- Witness for C8 on the `rec8` fixture: freshness of the emitted
handles and the decomposition with the discarded outer handle. -/
theorem C8_outer_face_discarded_witness :
    (∀ it ∈ [item8], ∀ i ∈ itemIds it, docC8.nextId ≤ i ∧ i ≠ 0) ∧
    ∃ fams d1 cutters d2 outer,
      read_contour_json rec8 500 = (.ok fams, 1) ∧
      process_groups hostC8 1 "+x" (docC8.setVisible 0 false)
        (zipGroups fams.contours fams.base_contours fams.erode_contours
          fams.diff_contours fams.severities) = .ok (d1, cutters, [item8]) ∧
      split_face_and_keep_outer hostC8 d1 0 (cutters.map some) = (d2, outer) ∧
      dF8 = d2.setVisible 0 true ∧
      (∀ r, outer = some r → ∀ it ∈ [item8], r ∉ itemIds it) :=
  C8_outer_face_discarded hostC8 docC8 500 "+x" 0 rec8 dF8 1 [item8]
    (by intro e he; fin_cases he <;> decide) (by decide) run8_face

/-! ### Infrastructure: the crack-creation state -/

/-- A lookup above every allocated id misses. -/
lemma cfindObj_none_of_ge (s : CrackState) (hwf : s.WF) (i : Nat) (hi : s.ctr ≤ i) :
    s.findObj i = none := by
  apply List.find?_eq_none.mpr
  intro e he
  have := hwf e he
  simp only [beq_iff_eq]
  omega

/-- A successful lookup returns the key and a stored entry. -/
lemma cfindObj_some_facts {s : CrackState} {i : Nat} {e : CrackEntry}
    (h : s.findObj i = some e) : e.oid = i ∧ e ∈ s.objs :=
  ⟨by simpa using List.find?_some h, List.mem_of_find?_eq_some h⟩

/-- Looking up the id just created finds the new entry (ambient layer). -/
lemma cfindObj_newObj_self (s : CrackState) (g : CrackObj) (hwf : s.WF) :
    ((s.newObj g).1).findObj s.ctr = some ⟨s.ctr, g, ""⟩ := by
  have h0 : List.find? (fun e => e.oid == s.ctr) s.objs = none :=
    cfindObj_none_of_ge s hwf s.ctr le_rfl
  show (s.objs ++ [CrackEntry.mk s.ctr g ""]).find? (fun e => e.oid == s.ctr) = _
  rw [List.find?_append, h0, List.find?_cons_of_pos _ (by simp)]
  rfl

/-- Creating an object leaves other lookups unchanged. -/
lemma cfindObj_newObj_of_ne (s : CrackState) (g : CrackObj) (j : Nat) (h : j ≠ s.ctr) :
    ((s.newObj g).1).findObj j = s.findObj j := by
  show (s.objs ++ [CrackEntry.mk s.ctr g ""]).find? (fun e => e.oid == j) = _
  rw [List.find?_append]
  cases hf : s.objs.find? (fun e => e.oid == j) with
  | some e =>
    have h1 : s.findObj j = some e := hf
    rw [h1]
    rfl
  | none =>
    have h1 : s.findObj j = none := hf
    rw [h1, List.find?_cons_of_neg _ (by simpa using Ne.symm h)]
    rfl

/-- Creation preserves well-formedness. -/
lemma cWF_newObj (s : CrackState) (g : CrackObj) (hwf : s.WF) : ((s.newObj g).1).WF := by
  intro e he
  show e.oid < s.ctr + 1
  rcases List.mem_append.mp he with h | h
  · have := hwf e h
    omega
  · have he2 : e = CrackEntry.mk s.ctr g "" := by simpa using h
    subst he2
    show s.ctr < s.ctr + 1
    omega

/-- `setLayer` only rewrites the targeted entry. -/
lemma cfindObj_setLayer (s : CrackState) (i : Nat) (l : String) (j : Nat) :
    (s.setLayer i l).findObj j =
      (s.findObj j).map (fun e => if e.oid == i then { e with layer := l } else e) :=
  find?_map_of_id (fun (e : CrackEntry) => e.oid == j)
    (fun (e : CrackEntry) => if e.oid == i then { e with layer := l } else e)
    (fun e => by by_cases h : e.oid = i <;> simp [h]) s.objs

/-- `setLayer` preserves well-formedness. -/
lemma cWF_setLayer (s : CrackState) (i : Nat) (l : String) (hwf : s.WF) :
    (s.setLayer i l).WF := by
  intro e he
  rcases List.mem_map.mp he with ⟨e0, he0, hmap⟩
  have h0 := hwf e0 he0
  show e.oid < s.ctr
  subst hmap
  by_cases h : e0.oid = i
  · rw [if_pos (by simpa using h)]
    exact h0
  · rw [if_neg (by simpa using h)]
    exact h0

/-- Every entry of `setLayer`'s result is an original entry or carries
the assigned layer. -/
lemma setLayer_prov (s : CrackState) (j : Nat) (l : String) :
    ∀ e ∈ (s.setLayer j l).objs, e ∈ s.objs ∨ e.layer = l := by
  intro e he
  rcases List.mem_map.mp he with ⟨e0, he0, hmap⟩
  subst hmap
  by_cases h : e0.oid = j
  · rw [if_pos (by simpa using h)]
    exact .inr rfl
  · rw [if_neg (by simpa using h)]
    exact .inl he0

/-- The tagging loop never touches the allocation counter. -/
lemma ctr_tagTargets (l : String) : ∀ (ts : List PyVal) (s : CrackState),
    (tagTargets s l ts).ctr = s.ctr := by
  intro ts
  induction ts with
  | nil =>
    intro s
    rfl
  | cons t rest ih =>
    intro s
    rw [tagTargets]
    cases hc : coerceguid t with
    | some j =>
      exact ih _
    | none =>
      exact ih _

/-- Tagging preserves well-formedness. -/
lemma cWF_tagTargets (l : String) : ∀ (ts : List PyVal) (s : CrackState), s.WF →
    (tagTargets s l ts).WF := by
  intro ts
  induction ts with
  | nil =>
    intro s hwf
    exact hwf
  | cons t rest ih =>
    intro s hwf
    rw [tagTargets]
    cases hc : coerceguid t with
    | some j =>
      exact ih _ (cWF_setLayer s j l hwf)
    | none =>
      exact ih _ hwf

/-- Tagging never changes geometry. -/
lemma tagTargets_geom (l : String) : ∀ (ts : List PyVal) (s : CrackState) (i : Nat),
    ((tagTargets s l ts).findObj i).map (fun e => e.geom) =
      (s.findObj i).map (fun e => e.geom) := by
  intro ts
  induction ts with
  | nil =>
    intro s i
    rfl
  | cons t rest ih =>
    intro s i
    rw [tagTargets]
    cases hc : coerceguid t with
    | some j =>
      dsimp only
      rw [ih _ i, cfindObj_setLayer]
      cases s.findObj i with
      | none => rfl
      | some e =>
        show some (CrackEntry.geom (if e.oid == j then { e with layer := l } else e)) = _
        by_cases h : (e.oid == j) = true
        · rw [if_pos h]
          rfl
        · rw [if_neg h]
          rfl
    | none =>
      exact ih _ i

/-- Ids that no target coerces to are untouched by tagging. -/
lemma tagTargets_not_mem (l : String) : ∀ (ts : List PyVal) (s : CrackState) (i : Nat),
    (∀ t ∈ ts, coerceguid t ≠ some i) → (tagTargets s l ts).findObj i = s.findObj i := by
  intro ts
  induction ts with
  | nil =>
    intro s i _
    rfl
  | cons t rest ih =>
    intro s i hni
    rw [tagTargets]
    cases hc : coerceguid t with
    | some j =>
      have hji : j ≠ i := by
        intro hji
        exact hni t (List.mem_cons_self t rest) (by rw [hc, hji])
      have hstep : (s.setLayer j l).findObj i = s.findObj i := by
        rw [cfindObj_setLayer]
        cases hf : s.findObj i with
        | none => rfl
        | some e =>
          have hoid := (cfindObj_some_facts hf).1
          show some (if e.oid == j then _ else e) = some e
          rw [if_neg (by simp [hoid]; exact Ne.symm hji)]
      rw [ih _ i (fun t ht => hni t (List.mem_cons_of_mem _ ht)), hstep]
    | none =>
      exact ih _ i (fun t ht => hni t (List.mem_cons_of_mem _ ht))

/-- Tagging with `l` keeps entries already on layer `l` on it. -/
lemma tagTargets_layer_stable (l : String) : ∀ (ts : List PyVal) (s : CrackState) (i : Nat),
    (s.findObj i).map (fun e => e.layer) = some l →
    ((tagTargets s l ts).findObj i).map (fun e => e.layer) = some l := by
  intro ts
  induction ts with
  | nil =>
    intro s i h
    exact h
  | cons t rest ih =>
    intro s i h
    rw [tagTargets]
    cases hc : coerceguid t with
    | some j =>
      refine ih _ i ?_
      rw [cfindObj_setLayer]
      cases hf : s.findObj i with
      | none =>
        rw [hf] at h
        cases h
      | some e =>
        rw [hf] at h
        show some (CrackEntry.layer (if e.oid == j then { e with layer := l } else e)) = _
        by_cases hj : (e.oid == j) = true
        · rw [if_pos hj]
        · rw [if_neg hj]
          exact h
    | none =>
      exact ih _ i h

/-- An existing entry that some target coerces to ends up on the
tagged layer. -/
lemma tagTargets_mem (l : String) : ∀ (ts : List PyVal) (s : CrackState) (i : Nat),
    (∃ t ∈ ts, coerceguid t = some i) → (s.findObj i).isSome = true →
    ((tagTargets s l ts).findObj i).map (fun e => e.layer) = some l := by
  intro ts
  induction ts with
  | nil =>
    intro s i hmem _
    obtain ⟨t, ht, _⟩ := hmem
    cases ht
  | cons t rest ih =>
    intro s i hmem hsome
    obtain ⟨e, hf⟩ := Option.isSome_iff_exists.mp hsome
    rw [tagTargets]
    obtain ⟨t0, ht0, hct0⟩ := hmem
    cases hc : coerceguid t with
    | some j =>
      by_cases hji : j = i
      · subst hji
        have hlay : ((s.setLayer j l).findObj j).map (fun e => e.layer) = some l := by
          rw [cfindObj_setLayer, hf]
          have hoid := (cfindObj_some_facts hf).1
          show some (CrackEntry.layer (if e.oid == j then { e with layer := l } else e)) = _
          rw [if_pos (by simpa using hoid)]
        exact tagTargets_layer_stable l rest _ j hlay
      · have hstep : (s.setLayer j l).findObj i = s.findObj i := by
          rw [cfindObj_setLayer]
          cases hf2 : s.findObj i with
          | none => rfl
          | some e2 =>
            have hoid := (cfindObj_some_facts hf2).1
            show some (if e2.oid == j then _ else e2) = some e2
            rw [if_neg (by simp [hoid]; exact fun h => hji h.symm)]
        rcases List.mem_cons.mp ht0 with rfl | ht0r
        · rw [hct0] at hc
          injection hc with hc2
          exact absurd hc2.symm hji
        · exact ih _ i ⟨t0, ht0r, hct0⟩ (by rw [hstep]; exact hsome)
    | none =>
      rcases List.mem_cons.mp ht0 with rfl | ht0r
      · rw [hct0] at hc
        cases hc
      · exact ih _ i ⟨t0, ht0r, hct0⟩ hsome

/-- Every entry after tagging is an original entry or carries the
tagged layer. -/
lemma tagTargets_prov (l : String) : ∀ (ts : List PyVal) (s : CrackState),
    ∀ e ∈ (tagTargets s l ts).objs, e ∈ s.objs ∨ e.layer = l := by
  intro ts
  induction ts with
  | nil =>
    intro s e he
    exact .inl he
  | cons t rest ih =>
    intro s e he
    rw [tagTargets] at he
    cases hc : coerceguid t with
    | some j =>
      rw [hc] at he
      rcases ih _ e he with h | h
      · exact setLayer_prov s j l e h
      · exact .inr h
    | none =>
      rw [hc] at he
      exact ih _ e he

/-- Bookkeeping for the diff-surface loop: well-formedness, counter
monotony, preservation of older entries, ambient layer on new entries,
and the id range of the produced surface handles. -/
lemma diffLoop_spec (vd1 : Vec3) :
    ∀ (dps : List (List Vec3)) (s : CrackState), s.WF →
    ∀ s' outs, diffLoop s vd1 dps = (s', outs) →
    s'.WF ∧ s.ctr ≤ s'.ctr ∧
    (∀ i, i < s.ctr → s'.findObj i = s.findObj i) ∧
    (∀ e ∈ s'.objs, e ∈ s.objs ∨ e.layer = "") ∧
    (∀ t ∈ outs, ∃ i, coerceguid t = some i ∧ s.ctr ≤ i ∧ i < s'.ctr) := by
  intro dps
  induction dps with
  | nil =>
    intro s hwf s' outs h
    injection h with h1 h2
    subst h1 h2
    exact ⟨hwf, le_rfl, fun _ _ => rfl, fun e he => .inl he, by simp⟩
  | cons dp rest ih =>
    intro s hwf s' outs h
    rw [diffLoop] at h
    cases hno : s.newObj (.planarSrf (translatePts dp vd1)) with
    | mk s1 sid =>
      rw [hno] at h
      dsimp only at h
      have hs1 : (s.newObj (.planarSrf (translatePts dp vd1))).1 = s1 := by rw [hno]
      have hsidv : sid = s.ctr := by
        have h2 : (s.newObj (.planarSrf (translatePts dp vd1))).2 = sid := by rw [hno]
        rw [← h2]
        rfl
      subst hsidv
      have hwf1 : s1.WF := by
        rw [← hs1]
        exact cWF_newObj s _ hwf
      have hctr1 : s1.ctr = s.ctr + 1 := by rw [← hs1]; rfl
      cases hrec : diffLoop s1 vd1 rest with
      | mk s2 out =>
        rw [hrec] at h
        dsimp only at h
        injection h with h1 h2
        subst h1 h2
        have hind := ih s1 hwf1 s2 out hrec
        refine ⟨hind.1, by omega, ?_, ?_, ?_⟩
        · intro i hi
          rw [hind.2.2.1 i (by omega), ← hs1]
          exact cfindObj_newObj_of_ne s _ i (by omega)
        · intro e he
          rcases hind.2.2.2.1 e he with h | h
          · rw [← hs1] at h
            rcases List.mem_append.mp h with h | h
            · exact .inl h
            · have he2 : e = CrackEntry.mk s.ctr (.planarSrf (translatePts dp vd1)) "" := by
                simpa using h
              subst he2
              exact .inr rfl
          · exact .inr h
        · intro t ht
          rcases List.mem_cons.mp ht with rfl | htr
          · exact ⟨s.ctr, rfl, le_rfl, by have := hind.2.1; omega⟩
          · obtain ⟨i, hci, h1, h2⟩ := hind.2.2.2.2 t htr
            exact ⟨i, hci, by omega, h2⟩

/-- Bookkeeping for the crack-extrusion loop, together with the exact
geometry of every created extrusion: each crack polygon's extrusion is
the `vec_d1`-translated copy extruded from its start point by exactly
`vec_delta`, on the ambient layer. -/
lemma crackLoop_spec (vd1 vdelta : Vec3) :
    ∀ (cps : List (List Vec3)) (s : CrackState), s.WF →
    ∀ s' exts caps, crackLoop s vd1 vdelta cps = (s', exts, caps) →
    s'.WF ∧ s.ctr ≤ s'.ctr ∧
    (∀ i, i < s.ctr → s'.findObj i = s.findObj i) ∧
    (∀ e ∈ s'.objs, e ∈ s.objs ∨ e.layer = "") ∧
    (∀ c ∈ caps, ∃ i, coerceguid c = some i ∧ s.ctr ≤ i ∧ i < s'.ctr) ∧
    (∀ i ∈ exts, s.ctr ≤ i ∧ i < s'.ctr ∧ (s'.findObj i).isSome = true ∧
      (s'.findObj i).map (fun e => e.layer) = some "") ∧
    List.Forall₂ (fun cp ext => s.ctr ≤ ext ∧ ext < s'.ctr ∧
      s'.findObj ext = some ⟨ext, .extrudedSolid (translatePts cp vd1)
        ((translatePts cp vd1).headD (0, 0, 0))
        (vadd ((translatePts cp vd1).headD (0, 0, 0)) vdelta), ""⟩) cps exts := by
  intro cps
  induction cps with
  | nil =>
    intro s hwf s' exts caps h
    injection h with h1 h2
    injection h2 with h2 h3
    subst h1 h2 h3
    exact ⟨hwf, le_rfl, fun _ _ => rfl, fun e he => .inl he, by simp, by simp,
      List.Forall₂.nil⟩
  | cons cp rest ih =>
    intro s hwf s' exts caps h
    rw [crackLoop] at h
    cases hno1 : s.newObj (.extrudedSolid (translatePts cp vd1)
        ((translatePts cp vd1).headD (0, 0, 0))
        (vadd ((translatePts cp vd1).headD (0, 0, 0)) vdelta)) with
    | mk s1 ext =>
      rw [hno1] at h
      dsimp only at h
      have hs1 : (s.newObj (.extrudedSolid (translatePts cp vd1)
          ((translatePts cp vd1).headD (0, 0, 0))
          (vadd ((translatePts cp vd1).headD (0, 0, 0)) vdelta))).1 = s1 := by rw [hno1]
      have hextv : ext = s.ctr := by
        have h2 : (s.newObj (.extrudedSolid (translatePts cp vd1)
            ((translatePts cp vd1).headD (0, 0, 0))
            (vadd ((translatePts cp vd1).headD (0, 0, 0)) vdelta))).2 = ext := by rw [hno1]
        rw [← h2]
        rfl
      subst hextv
      have hwf1 : s1.WF := by
        rw [← hs1]
        exact cWF_newObj s _ hwf
      have hctr1 : s1.ctr = s.ctr + 1 := by rw [← hs1]; rfl
      cases hno2 : s1.newObj (.planarSrf (translatePts (translatePts cp vd1) vdelta)) with
      | mk s2 cap =>
        rw [hno2] at h
        dsimp only at h
        have hs2 : (s1.newObj (.planarSrf (translatePts
            (translatePts cp vd1) vdelta))).1 = s2 := by rw [hno2]
        have hcapv : cap = s1.ctr := by
          have h2 : (s1.newObj (.planarSrf (translatePts
              (translatePts cp vd1) vdelta))).2 = cap := by rw [hno2]
          rw [← h2]
          rfl
        subst hcapv
        have hwf2 : s2.WF := by
          rw [← hs2]
          exact cWF_newObj s1 _ hwf1
        have hctr2 : s2.ctr = s1.ctr + 1 := by rw [← hs2]; rfl
        cases hrec : crackLoop s2 vd1 vdelta rest with
        | mk s3 out =>
          obtain ⟨oexts, ocaps⟩ := out
          rw [hrec] at h
          dsimp only at h
          injection h with h1 h2
          injection h2 with h2 h3
          subst h1 h2 h3
          have hind := ih s2 hwf2 s3 oexts ocaps hrec
          have hpres : ∀ i, i < s.ctr → s3.findObj i = s.findObj i := by
            intro i hi
            rw [hind.2.2.1 i (by omega), ← hs2,
              cfindObj_newObj_of_ne s1 _ i (by omega), ← hs1]
            exact cfindObj_newObj_of_ne s _ i (by omega)
          have hfext : s3.findObj s.ctr = some ⟨s.ctr, .extrudedSolid (translatePts cp vd1)
              ((translatePts cp vd1).headD (0, 0, 0))
              (vadd ((translatePts cp vd1).headD (0, 0, 0)) vdelta), ""⟩ := by
            rw [hind.2.2.1 s.ctr (by omega), ← hs2,
              cfindObj_newObj_of_ne s1 _ s.ctr (by omega), ← hs1]
            exact cfindObj_newObj_self s _ hwf
          refine ⟨hind.1, by omega, hpres, ?_, ?_, ?_, ?_⟩
          · intro e he
            rcases hind.2.2.2.1 e he with h | h
            · rw [← hs2] at h
              rcases List.mem_append.mp h with h | h
              · rw [← hs1] at h
                rcases List.mem_append.mp h with h | h
                · exact .inl h
                · have he2 : e = CrackEntry.mk s.ctr (.extrudedSolid (translatePts cp vd1)
                      ((translatePts cp vd1).headD (0, 0, 0))
                      (vadd ((translatePts cp vd1).headD (0, 0, 0)) vdelta)) "" := by
                    simpa using h
                  subst he2
                  exact .inr rfl
              · have he2 : e = CrackEntry.mk s1.ctr (.planarSrf (translatePts
                    (translatePts cp vd1) vdelta)) "" := by
                  simpa using h
                subst he2
                exact .inr rfl
            · exact .inr h
          · intro c hc
            rcases List.mem_cons.mp hc with rfl | hcr
            · exact ⟨s1.ctr, rfl, by omega, by have := hind.2.1; omega⟩
            · obtain ⟨i, hci, hi1, hi2⟩ := hind.2.2.2.2.1 c hcr
              exact ⟨i, hci, by omega, hi2⟩
          · intro i hi
            rcases List.mem_cons.mp hi with rfl | hir
            · rw [hfext]
              exact ⟨le_rfl, by have := hind.2.1; omega, rfl, rfl⟩
            · obtain ⟨h1, h2, h3, h4⟩ := hind.2.2.2.2.2.1 i hir
              exact ⟨by omega, h2, h3, h4⟩
          · refine List.Forall₂.cons ⟨le_rfl, by have := hind.2.1; omega, hfext⟩ ?_
            refine (hind.2.2.2.2.2.2).imp ?_
            intro a b hb
            exact ⟨by omega, hb.2.1, hb.2.2⟩

/-- Bookkeeping for the inner-extrusion loop: the produced ids are
fresh, on the ambient layer, and present in the final state. -/
lemma innerLoop_spec (vd1 vdelta : Vec3) :
    ∀ (sps : List (List Vec3)) (s : CrackState), s.WF →
    ∀ s' ids, innerLoop s vd1 vdelta sps = (s', ids) →
    s'.WF ∧ s.ctr ≤ s'.ctr ∧
    (∀ i, i < s.ctr → s'.findObj i = s.findObj i) ∧
    (∀ e ∈ s'.objs, e ∈ s.objs ∨ e.layer = "") ∧
    (∀ i ∈ ids, s.ctr ≤ i ∧ i < s'.ctr ∧ (s'.findObj i).isSome = true ∧
      (s'.findObj i).map (fun e => e.layer) = some "") := by
  intro sps
  induction sps with
  | nil =>
    intro s hwf s' ids h
    injection h with h1 h2
    subst h1 h2
    exact ⟨hwf, le_rfl, fun _ _ => rfl, fun e he => .inl he, by simp⟩
  | cons sp rest ih =>
    intro s hwf s' ids h
    rw [innerLoop] at h
    cases hno1 : s.newObj (.extrudedSolid (translatePts sp vd1)
        ((translatePts sp vd1).headD (0, 0, 0))
        (vadd ((translatePts sp vd1).headD (0, 0, 0)) vdelta)) with
    | mk s1 ext =>
      rw [hno1] at h
      dsimp only at h
      have hs1 : (s.newObj (.extrudedSolid (translatePts sp vd1)
          ((translatePts sp vd1).headD (0, 0, 0))
          (vadd ((translatePts sp vd1).headD (0, 0, 0)) vdelta))).1 = s1 := by rw [hno1]
      have hextv : ext = s.ctr := by
        have h2 : (s.newObj (.extrudedSolid (translatePts sp vd1)
            ((translatePts sp vd1).headD (0, 0, 0))
            (vadd ((translatePts sp vd1).headD (0, 0, 0)) vdelta))).2 = ext := by rw [hno1]
        rw [← h2]
        rfl
      subst hextv
      have hwf1 : s1.WF := by
        rw [← hs1]
        exact cWF_newObj s _ hwf
      have hctr1 : s1.ctr = s.ctr + 1 := by rw [← hs1]; rfl
      cases hno2 : s1.newObj (.planarSrf (translatePts sp vd1)) with
      | mk s2 cap =>
        rw [hno2] at h
        dsimp only at h
        have hs2 : (s1.newObj (.planarSrf (translatePts sp vd1))).1 = s2 := by rw [hno2]
        have hcapv : cap = s1.ctr := by
          have h2 : (s1.newObj (.planarSrf (translatePts sp vd1))).2 = cap := by rw [hno2]
          rw [← h2]
          rfl
        subst hcapv
        have hwf2 : s2.WF := by
          rw [← hs2]
          exact cWF_newObj s1 _ hwf1
        have hctr2 : s2.ctr = s1.ctr + 1 := by rw [← hs2]; rfl
        cases hrec : innerLoop s2 vd1 vdelta rest with
        | mk s3 oids =>
          rw [hrec] at h
          dsimp only at h
          injection h with h1 h2
          subst h1 h2
          have hind := ih s2 hwf2 s3 oids hrec
          have hpres : ∀ i, i < s.ctr → s3.findObj i = s.findObj i := by
            intro i hi
            rw [hind.2.2.1 i (by omega), ← hs2,
              cfindObj_newObj_of_ne s1 _ i (by omega), ← hs1]
            exact cfindObj_newObj_of_ne s _ i (by omega)
          have hfext : s3.findObj s.ctr = some ⟨s.ctr, .extrudedSolid (translatePts sp vd1)
              ((translatePts sp vd1).headD (0, 0, 0))
              (vadd ((translatePts sp vd1).headD (0, 0, 0)) vdelta), ""⟩ := by
            rw [hind.2.2.1 s.ctr (by omega), ← hs2,
              cfindObj_newObj_of_ne s1 _ s.ctr (by omega), ← hs1]
            exact cfindObj_newObj_self s _ hwf
          have hfcap : s3.findObj s1.ctr = some ⟨s1.ctr,
              .planarSrf (translatePts sp vd1), ""⟩ := by
            rw [hind.2.2.1 s1.ctr (by omega), ← hs2]
            exact cfindObj_newObj_self s1 _ hwf1
          refine ⟨hind.1, by omega, hpres, ?_, ?_⟩
          · intro e he
            rcases hind.2.2.2.1 e he with h | h
            · rw [← hs2] at h
              rcases List.mem_append.mp h with h | h
              · rw [← hs1] at h
                rcases List.mem_append.mp h with h | h
                · exact .inl h
                · have he2 : e = CrackEntry.mk s.ctr (.extrudedSolid (translatePts sp vd1)
                      ((translatePts sp vd1).headD (0, 0, 0))
                      (vadd ((translatePts sp vd1).headD (0, 0, 0)) vdelta)) "" := by
                    simpa using h
                  subst he2
                  exact .inr rfl
              · have he2 : e = CrackEntry.mk s1.ctr (.planarSrf (translatePts sp vd1)) "" := by
                  simpa using h
                subst he2
                exact .inr rfl
            · exact .inr h
          · intro i hi
            rcases List.mem_cons.mp hi with rfl | hi
            · rw [hfext]
              exact ⟨le_rfl, by have := hind.2.1; omega, rfl, rfl⟩
            rcases List.mem_cons.mp hi with rfl | hi
            · rw [hfcap]
              exact ⟨by omega, by have := hind.2.1; omega, rfl, rfl⟩
            · obtain ⟨h1, h2, h3, h4⟩ := hind.2.2.2.2 i hi
              exact ⟨by omega, h2, h3, h4⟩

/-- Decomposition of a successful `create_crack` run with an injected
inward direction: the guard passes, the state threads through the
diff-surface, crack-extrusion and inner-extrusion loops, and the
returned collections and final (tagged) state are exactly the loop
outputs. -/
lemma create_crack_run (env : CrackEnv) (s0 : CrackState)
    (crack_polys crack_inside_polys : List (List Vec3))
    (base_poly offset_poly : List Vec3) (diff_polys : List (List Vec3))
    (dir : Vec3) (out : CrackOut)
    (hrun : create_crack env s0 crack_polys crack_inside_polys base_poly offset_poly
      diff_polys (some dir) = some out) :
    ¬((crack_polys.filter (fun bp => !bp.isEmpty)).isEmpty = true ∨
      base_poly.isEmpty = true ∨ offset_poly.isEmpty = true) ∧
    ∃ s1 ds s2 s3 exts caps s4 inner,
      diffLoop s0 (vscale env.d1 dir) diff_polys = (s1, ds) ∧
      (s1.newObj (.loftSrf offset_poly (crackSeamCurve env base_poly offset_poly dir))).1
        = s2 ∧
      crackLoop s2 (vscale env.d1 dir) (vscale env.d2delta dir)
        (crack_polys.filter (fun bp => !bp.isEmpty)) = (s3, exts, caps) ∧
      innerLoop s3 (vscale env.d1 dir) (vscale env.d2delta dir)
        (crack_inside_polys.filter (fun sp => !sp.isEmpty)) = (s4, inner) ∧
      out.loft_ids = [s1.ctr] ∧ out.extrusions = exts ∧ out.bottom_caps = caps ∧
      out.inner_extrusions = inner ∧ out.diff_surfaces = ds ∧
      out.base_bottom_curve = translatePts base_poly (vscale env.d1 dir) ∧
      out.bottom_oriented = crackSeamCurve env base_poly offset_poly dir ∧
      out.state = (if env.isLayer "cube" then
          tagTargets (tagTargets
            (if env.isLayer "crack_extrusion" then
              tagTargets s4 "crack_extrusion"
                (List.map PyVal.guid [s1.ctr]
                  ++ (match exts.getLast? with
                      | some e => [PyVal.guid e]
                      | none => [])
                  ++ (match caps.getLast? with
                      | some c => [c]
                      | none => []))
            else s4) "cube" (inner.map PyVal.guid)) "cube" ds
        else
          (if env.isLayer "crack_extrusion" then
            tagTargets s4 "crack_extrusion"
              (List.map PyVal.guid [s1.ctr]
                ++ (match exts.getLast? with
                    | some e => [PyVal.guid e]
                    | none => [])
                ++ (match caps.getLast? with
                    | some c => [c]
                    | none => []))
          else s4)) := by
  unfold create_crack at hrun
  dsimp only at hrun
  rw [show env.d1 + env.d2delta - env.d1 = env.d2delta from by ring] at hrun
  by_cases hg : ((crack_polys.filter (fun bp => !bp.isEmpty)).isEmpty = true ∨
      base_poly.isEmpty = true ∨ offset_poly.isEmpty = true)
  · rw [if_pos hg] at hrun
    cases hrun
  · rw [if_neg hg] at hrun
    rw [show env.seam
        (if env.dirMatch offset_poly (translatePts base_poly (vscale env.d1 dir)) then
          translatePts base_poly (vscale env.d1 dir)
        else (translatePts base_poly (vscale env.d1 dir)).reverse)
        (offset_poly.headD (0, 0, 0)) = crackSeamCurve env base_poly offset_poly dir
      from rfl] at hrun
    cases hdl : diffLoop s0 (vscale env.d1 dir) diff_polys with
    | mk s1 ds =>
      rw [hdl] at hrun
      dsimp only at hrun
      cases hno : s1.newObj (.loftSrf offset_poly
          (crackSeamCurve env base_poly offset_poly dir)) with
      | mk s2 loft =>
        rw [hno] at hrun
        dsimp only at hrun
        have hs2 : (s1.newObj (.loftSrf offset_poly
            (crackSeamCurve env base_poly offset_poly dir))).1 = s2 := by rw [hno]
        have hloft : loft = s1.ctr := by
          have h2 : (s1.newObj (.loftSrf offset_poly
              (crackSeamCurve env base_poly offset_poly dir))).2 = loft := by rw [hno]
          rw [← h2]
          rfl
        subst hloft
        cases hcl : crackLoop s2 (vscale env.d1 dir) (vscale env.d2delta dir)
            (crack_polys.filter (fun bp => !bp.isEmpty)) with
        | mk s3 cout =>
          obtain ⟨exts, caps⟩ := cout
          rw [hcl] at hrun
          dsimp only at hrun
          cases hil : innerLoop s3 (vscale env.d1 dir) (vscale env.d2delta dir)
              (crack_inside_polys.filter (fun sp => !sp.isEmpty)) with
          | mk s4 inner =>
            rw [hil] at hrun
            dsimp only at hrun
            injection hrun with hout
            subst hout
            exact ⟨hg, s1, ds, s2, s3, exts, caps, s4, inner, rfl, hs2, hcl, hil,
              rfl, rfl, rfl, rfl, rfl, rfl, rfl, rfl⟩

/-- C1 (confirmed): with a fixed injected sampling (`d1`, `d2 - d1`)
and a precomputed inward direction, the bottom curve produced by
`create_crack` is the base boundary translated by exactly `d1` along
the inward direction, and every crack-contour extrusion solid runs
from its `d1`-translated start curve over exactly `d2 - d1` along the
same direction. -/
theorem C1_crack_depth_law (env : CrackEnv) (s0 : CrackState)
    (crack_polys crack_inside_polys : List (List Vec3))
    (base_poly offset_poly : List Vec3) (diff_polys : List (List Vec3))
    (dir : Vec3) (out : CrackOut) (hwf : s0.WF)
    (hrun : create_crack env s0 crack_polys crack_inside_polys base_poly offset_poly
      diff_polys (some dir) = some out) :
    out.base_bottom_curve = translatePts base_poly (vscale env.d1 dir) ∧
    List.Forall₂ (fun cp ext =>
      (out.state.findObj ext).map (fun e => e.geom) =
        some (.extrudedSolid (translatePts cp (vscale env.d1 dir))
          ((translatePts cp (vscale env.d1 dir)).headD (0, 0, 0))
          (vadd ((translatePts cp (vscale env.d1 dir)).headD (0, 0, 0))
            (vscale env.d2delta dir))))
      (crack_polys.filter (fun bp => !bp.isEmpty)) out.extrusions := by
  obtain ⟨hg, s1, ds, s2, s3, exts, caps, s4, inner, hdl, hs2, hcl, hil,
    hlids, hexts, hcaps, hinner, hds, hbase, hbo, hstate⟩ :=
    create_crack_run env s0 crack_polys crack_inside_polys base_poly offset_poly
      diff_polys dir out hrun
  refine ⟨hbase, ?_⟩
  have hdls := diffLoop_spec (vscale env.d1 dir) diff_polys s0 hwf s1 ds hdl
  have hwf2 : s2.WF := by
    rw [← hs2]
    exact cWF_newObj s1 _ hdls.1
  have hcls := crackLoop_spec (vscale env.d1 dir) (vscale env.d2delta dir)
    (crack_polys.filter (fun bp => !bp.isEmpty)) s2 hwf2 s3 exts caps hcl
  have hils := innerLoop_spec (vscale env.d1 dir) (vscale env.d2delta dir)
    (crack_inside_polys.filter (fun sp => !sp.isEmpty)) s3 hcls.1 s4 inner hil
  rw [hexts]
  refine hcls.2.2.2.2.2.2.imp ?_
  intro cp ext hb
  have h4 : s4.findObj ext = s3.findObj ext := hils.2.2.1 ext hb.2.1
  have hstate_geom : (out.state.findObj ext).map (fun e => e.geom) =
      (s4.findObj ext).map (fun e => e.geom) := by
    rw [hstate]
    by_cases hc2 : env.isLayer "cube" = true
    · rw [if_pos hc2, tagTargets_geom, tagTargets_geom]
      by_cases hc1 : env.isLayer "crack_extrusion" = true
      · rw [if_pos hc1, tagTargets_geom]
      · rw [if_neg hc1]
    · rw [if_neg hc2]
      by_cases hc1 : env.isLayer "crack_extrusion" = true
      · rw [if_pos hc1, tagTargets_geom]
      · rw [if_neg hc1]
  rw [hstate_geom, h4, hb.2.2]
  rfl

/-- Witness for C1 at the spec's concrete samples `d1 = 1.0`,
`d2 - d1 = 20.0` with inward direction `(0, 0, -1)`: the bottom curve
lies at depth 1 and the single extrusion runs from depth 1 to
depth 21. -/
theorem C1_crack_depth_law_witness :
    out1.base_bottom_curve = translatePts [(0, 0, 0)] (vscale env1.d1 (0, 0, -1)) ∧
    List.Forall₂ (fun cp ext =>
      (out1.state.findObj ext).map (fun e => e.geom) =
        some (.extrudedSolid (translatePts cp (vscale env1.d1 (0, 0, -1)))
          ((translatePts cp (vscale env1.d1 (0, 0, -1))).headD (0, 0, 0))
          (vadd ((translatePts cp (vscale env1.d1 (0, 0, -1))).headD (0, 0, 0))
            (vscale env1.d2delta (0, 0, -1)))))
      ([[(0, 0, 0), (1, 0, 0)]].filter (fun bp => !bp.isEmpty)) out1.extrusions :=
  C1_crack_depth_law env1 ⟨0, []⟩ [[(0, 0, 0), (1, 0, 0)]] [] [(0, 0, 0)] [(0, 0, 0)] []
    (0, 0, -1) out1 (by intro e he; exact absurd he (List.not_mem_nil e))
    (by norm_num [create_crack, diffLoop, crackLoop, innerLoop, CrackState.newObj,
      translatePts, vadd, vscale, env1, out1])

/-- Tagging never changes which lookups succeed. -/
lemma tagTargets_isSome (l : String) (ts : List PyVal) (s : CrackState) (i : Nat) :
    ((tagTargets s l ts).findObj i).isSome = (s.findObj i).isSome := by
  have h := tagTargets_geom l ts s i
  cases hf : s.findObj i with
  | none =>
    rw [hf] at h
    rw [Option.map_eq_none'.mp h]
  | some e =>
    rw [hf] at h
    obtain ⟨a, ha, _⟩ := Option.map_eq_some'.mp h
    rw [ha]
    rfl

/-- The complete `create_crack` run on the `env7` fixture (two crack
polygons, one inside polygon, one diff polygon, all layers present). -/
lemma run7 :
    create_crack env7 ⟨0, []⟩ [[(0, 0, 0), (1, 0, 0)], [(2, 0, 0), (3, 0, 0)]]
      [[(5, 0, 0)]] [(0, 0, 0)] [(0, 0, 0)] [[(6, 0, 0)]] (some (0, 0, -1))
      = some out7 := by
  norm_num [create_crack, diffLoop, crackLoop, innerLoop, CrackState.newObj,
    CrackState.setLayer, tagTargets, coerceguid, translatePts, vadd, vscale,
    List.getLast?, env7, out7]

/-- C7 counterexample: with every layer (including the severity layer
`crack_CS1`) present, `create_crack` tags the loft with the fixed
layer `crack_extrusion` — not the severity layer — and leaves the
first wall extrusion on the ambient layer entirely untagged. -/
theorem C7_counterexample :
    create_crack env7 ⟨0, []⟩ [[(0, 0, 0), (1, 0, 0)], [(2, 0, 0), (3, 0, 0)]]
      [[(5, 0, 0)]] [(0, 0, 0)] [(0, 0, 0)] [[(6, 0, 0)]] (some (0, 0, -1))
      = some out7 ∧
    env7.isLayer "crack_CS1" = true ∧
    out7.loft_ids = [1] ∧
    (out7.state.findObj 1).map (fun e => e.layer) = some "crack_extrusion" ∧
    "crack_extrusion" ≠ "crack_CS1" ∧
    out7.extrusions = [2, 4] ∧
    (out7.state.findObj 2).map (fun e => e.layer) = some "" :=
  ⟨run7, rfl, rfl, by decide, by decide, rfl, by decide⟩

/-- C7 (amended): `create_crack` never tags geometry with a severity
layer.  Every entry it creates is on the ambient, `crack_extrusion` or
`cube` layer; when the fixed `crack_extrusion` layer exists it is
applied to the loft and (through the leaked loop variables) only to
the LAST extrusion — when that layer is missing the loft and all
extrusions stay untagged and the call still succeeds (no failure);
inner extrusions are tagged `cube` when that layer exists; and the
severity-layer existence check with its `MissingLayer` failure lives
in `create_cube`'s group loop, not in `create_crack`. -/
theorem C7_layer_tagging (env : CrackEnv) (s0 : CrackState)
    (crack_polys crack_inside_polys : List (List Vec3))
    (base_poly offset_poly : List Vec3) (diff_polys : List (List Vec3))
    (dir : Vec3) (out : CrackOut) (hwf : s0.WF)
    (hrun : create_crack env s0 crack_polys crack_inside_polys base_poly offset_poly
      diff_polys (some dir) = some out) :
    (∀ e ∈ out.state.objs, e ∈ s0.objs ∨ e.layer = "" ∨ e.layer = "crack_extrusion" ∨
      e.layer = "cube") ∧
    (env.isLayer "crack_extrusion" = true →
      ∀ l ∈ out.loft_ids, (out.state.findObj l).map (fun e => e.layer)
        = some "crack_extrusion") ∧
    (env.isLayer "crack_extrusion" = true →
      ∀ elast, out.extrusions.getLast? = some elast →
        (out.state.findObj elast).map (fun e => e.layer) = some "crack_extrusion") ∧
    (env.isLayer "crack_extrusion" = false →
      (∀ l ∈ out.loft_ids, (out.state.findObj l).map (fun e => e.layer) = some "") ∧
      (∀ i ∈ out.extrusions, (out.state.findObj i).map (fun e => e.layer) = some "")) ∧
    (env.isLayer "cube" = true →
      ∀ i ∈ out.inner_extrusions, (out.state.findObj i).map (fun e => e.layer)
        = some "cube") ∧
    (create_crack { env with isLayer := fun _ => false } s0 crack_polys crack_inside_polys
      base_poly offset_poly diff_polys (some dir)).isSome = true ∧
    (∀ (host : GeomHost) (cl : ℚ) (face : String) (d : Doc) (g : GroupIn)
        (rest : List GroupIn) (eps bps : List Vec3) (dB dC dD : Doc) (e1 b1 : Nat)
        (dids : List Nat),
      map_2d_to_cube_face cl (center_2d_points cl g.erode_contour.points) face
        = some eps →
      add_polygon_curve d eps = (dB, some e1) →
      map_2d_to_cube_face cl (center_2d_points cl g.base_contour.points) face
        = some bps →
      add_polygon_curve dB bps = (dC, some b1) →
      addDiffPolys cl face dC g.diff_group = .ok (dD, dids) →
      dD.isLayer ("crack_" ++ g.severity) = false →
      process_groups host cl face d (g :: rest) =
        .error (.missingLayer ("crack_" ++ g.severity))) := by
  obtain ⟨hg, s1, ds, s2, s3, exts, caps, s4, inner, hdl, hs2, hcl, hil,
    hlids, hexts, hcaps, hinner, hds, hbase, hbo, hstate⟩ :=
    create_crack_run env s0 crack_polys crack_inside_polys base_poly offset_poly
      diff_polys dir out hrun
  have hdls := diffLoop_spec (vscale env.d1 dir) diff_polys s0 hwf s1 ds hdl
  have hwf2 : s2.WF := by
    rw [← hs2]
    exact cWF_newObj s1 _ hdls.1
  have hctr2 : s2.ctr = s1.ctr + 1 := by rw [← hs2]; rfl
  have hcls := crackLoop_spec (vscale env.d1 dir) (vscale env.d2delta dir)
    (crack_polys.filter (fun bp => !bp.isEmpty)) s2 hwf2 s3 exts caps hcl
  have hils := innerLoop_spec (vscale env.d1 dir) (vscale env.d2delta dir)
    (crack_inside_polys.filter (fun sp => !sp.isEmpty)) s3 hcls.1 s4 inner hil
  have h2le3 : s2.ctr ≤ s3.ctr := hcls.2.1
  have h3le4 : s3.ctr ≤ s4.ctr := hils.2.1
  have hloftS4 : s4.findObj s1.ctr = some ⟨s1.ctr,
      .loftSrf offset_poly (crackSeamCurve env base_poly offset_poly dir), ""⟩ := by
    rw [hils.2.2.1 s1.ctr (by omega), hcls.2.2.1 s1.ctr (by omega), ← hs2]
    exact cfindObj_newObj_self s1 _ hdls.1
  have hds_ne : ∀ m, s1.ctr ≤ m → ∀ t ∈ ds, coerceguid t ≠ some m := by
    intro m hm t ht hco
    obtain ⟨j, hcj, _, hj2⟩ := hdls.2.2.2.2 t ht
    rw [hcj] at hco
    injection hco with hjm
    omega
  have hinner_ne : ∀ m, m < s3.ctr → ∀ t ∈ inner.map PyVal.guid,
      coerceguid t ≠ some m := by
    intro m hm t ht hco
    obtain ⟨i, hi, rfl⟩ := List.mem_map.mp ht
    have hif := hils.2.2.2.2 i hi
    have him : i = m := by injection hco
    omega
  refine ⟨?_, ?_, ?_, ?_, ?_, ?_, ?_⟩
  · intro e he
    rw [hstate] at he
    have hstep : ∀ e, e ∈ s4.objs → e ∈ s0.objs ∨ e.layer = "" ∨
        e.layer = "crack_extrusion" ∨ e.layer = "cube" := by
      intro e he4
      rcases hils.2.2.2.1 e he4 with h3 | h3
      · rcases hcls.2.2.2.1 e h3 with h2 | h2
        · rw [← hs2] at h2
          rcases List.mem_append.mp h2 with h1 | h1
          · rcases hdls.2.2.2.1 e h1 with h0 | h0
            · exact .inl h0
            · exact .inr (.inl h0)
          · have he2 : e = CrackEntry.mk s1.ctr (.loftSrf offset_poly
                (crackSeamCurve env base_poly offset_poly dir)) "" := by
              simpa using h1
            subst he2
            exact .inr (.inl rfl)
        · exact .inr (.inl h2)
      · exact .inr (.inl h3)
    by_cases hc2 : env.isLayer "cube" = true
    · rw [if_pos hc2] at he
      rcases tagTargets_prov "cube" ds _ e he with h | h
      · rcases tagTargets_prov "cube" (inner.map PyVal.guid) _ e h with h | h
        · by_cases hc1 : env.isLayer "crack_extrusion" = true
          · rw [if_pos hc1] at h
            rcases tagTargets_prov "crack_extrusion" _ _ e h with h | h
            · exact hstep e h
            · exact .inr (.inr (.inl h))
          · rw [if_neg hc1] at h
            exact hstep e h
        · exact .inr (.inr (.inr h))
      · exact .inr (.inr (.inr h))
    · rw [if_neg hc2] at he
      by_cases hc1 : env.isLayer "crack_extrusion" = true
      · rw [if_pos hc1] at he
        rcases tagTargets_prov "crack_extrusion" _ _ e he with h | h
        · exact hstep e h
        · exact .inr (.inr (.inl h))
      · rw [if_neg hc1] at he
        exact hstep e he
  · intro hc1 l hl
    rw [hlids] at hl
    have hls : l = s1.ctr := by simpa using hl
    subst hls
    have htag : ((tagTargets s4 "crack_extrusion"
        (List.map PyVal.guid [s1.ctr]
          ++ (match exts.getLast? with
              | some e => [PyVal.guid e]
              | none => [])
          ++ (match caps.getLast? with
              | some c => [c]
              | none => []))).findObj s1.ctr).map (fun e => e.layer)
        = some "crack_extrusion" := by
      refine tagTargets_mem _ _ _ _ ⟨PyVal.guid s1.ctr, ?_, rfl⟩ ?_
      · simp
      · rw [hloftS4]
        rfl
    rw [hstate]
    by_cases hc2 : env.isLayer "cube" = true
    · rw [if_pos hc2, tagTargets_not_mem _ ds _ _ (hds_ne s1.ctr le_rfl),
        tagTargets_not_mem _ (inner.map PyVal.guid) _ _ (hinner_ne s1.ctr (by omega)),
        if_pos hc1]
      exact htag
    · rw [if_neg hc2, if_pos hc1]
      exact htag
  · intro hc1 elast hlast
    rw [hexts] at hlast
    have hmem : elast ∈ exts := by
      obtain ⟨hne, heq⟩ := List.mem_getLast?_eq_getLast
        (show elast ∈ exts.getLast? from by rw [hlast]; rfl)
      rw [heq]
      exact List.getLast_mem hne
    obtain ⟨he1, he2, he3, he4⟩ := hcls.2.2.2.2.2.1 elast hmem
    have hS4 : (s4.findObj elast).isSome = true := by
      rw [hils.2.2.1 elast he2]
      exact he3
    have htag : ((tagTargets s4 "crack_extrusion"
        (List.map PyVal.guid [s1.ctr]
          ++ (match exts.getLast? with
              | some e => [PyVal.guid e]
              | none => [])
          ++ (match caps.getLast? with
              | some c => [c]
              | none => []))).findObj elast).map (fun e => e.layer)
        = some "crack_extrusion" := by
      refine tagTargets_mem _ _ _ _ ⟨PyVal.guid elast, ?_, rfl⟩ hS4
      rw [hlast]
      simp
    rw [hstate]
    by_cases hc2 : env.isLayer "cube" = true
    · rw [if_pos hc2, tagTargets_not_mem _ ds _ _ (hds_ne elast (by omega)),
        tagTargets_not_mem _ (inner.map PyVal.guid) _ _ (hinner_ne elast he2),
        if_pos hc1]
      exact htag
    · rw [if_neg hc2, if_pos hc1]
      exact htag
  · intro hc1f
    have hc1 : ¬ env.isLayer "crack_extrusion" = true := by
      rw [hc1f]
      simp
    constructor
    · intro l hl
      rw [hlids] at hl
      have hls : l = s1.ctr := by simpa using hl
      subst hls
      rw [hstate]
      by_cases hc2 : env.isLayer "cube" = true
      · rw [if_pos hc2, tagTargets_not_mem _ ds _ _ (hds_ne s1.ctr le_rfl),
          tagTargets_not_mem _ (inner.map PyVal.guid) _ _ (hinner_ne s1.ctr (by omega)),
          if_neg hc1, hloftS4]
        rfl
      · rw [if_neg hc2, if_neg hc1, hloftS4]
        rfl
    · intro i hi
      rw [hexts] at hi
      obtain ⟨he1, he2, he3, he4⟩ := hcls.2.2.2.2.2.1 i hi
      have h4 : s4.findObj i = s3.findObj i := hils.2.2.1 i he2
      rw [hstate]
      by_cases hc2 : env.isLayer "cube" = true
      · rw [if_pos hc2, tagTargets_not_mem _ ds _ _ (hds_ne i (by omega)),
          tagTargets_not_mem _ (inner.map PyVal.guid) _ _ (hinner_ne i he2),
          if_neg hc1, h4]
        exact he4
      · rw [if_neg hc2, if_neg hc1, h4]
        exact he4
  · intro hc2 i hi
    rw [hinner] at hi
    obtain ⟨hi1, hi2, hi3, hi4⟩ := hils.2.2.2.2 i hi
    rw [hstate, if_pos hc2]
    refine tagTargets_layer_stable _ ds _ i ?_
    refine tagTargets_mem _ _ _ _ ⟨PyVal.guid i, List.mem_map_of_mem _ hi, rfl⟩ ?_
    by_cases hc1 : env.isLayer "crack_extrusion" = true
    · rw [if_pos hc1, tagTargets_isSome]
      exact hi3
    · rw [if_neg hc1]
      exact hi3
  · unfold create_crack
    dsimp only
    rw [show env.d1 + env.d2delta - env.d1 = env.d2delta from by ring]
    rw [if_neg hg]
    rw [show env.seam
        (if env.dirMatch offset_poly (translatePts base_poly (vscale env.d1 dir)) then
          translatePts base_poly (vscale env.d1 dir)
        else (translatePts base_poly (vscale env.d1 dir)).reverse)
        (offset_poly.headD (0, 0, 0)) = crackSeamCurve env base_poly offset_poly dir
      from rfl]
    rw [hdl]
    dsimp only
    rw [show s1.newObj (.loftSrf offset_poly (crackSeamCurve env base_poly offset_poly dir))
        = (s2, s1.ctr) from by rw [← hs2]; rfl]
    dsimp only
    rw [hcl]
    dsimp only
    rw [hil]
    rfl
  · intro host cl face d g rest eps bps dB dC dD e1 b1 dids hm1 hap1 hm2 hap2 hdp hlay
    rw [process_groups.eq_def]
    dsimp only
    rw [hm1]
    dsimp only
    rw [hap1]
    dsimp only
    rw [hm2]
    dsimp only
    rw [hap2]
    dsimp only
    rw [hdp]
    dsimp only
    rw [if_neg (by rw [hlay]; simp)]

/-- Witness for C7 on the `env7` fixture (all layers present, two
crack polygons, one inside polygon, one diff polygon). -/
theorem C7_layer_tagging_witness :
    (∀ e ∈ out7.state.objs, e ∈ (⟨0, []⟩ : CrackState).objs ∨ e.layer = "" ∨
      e.layer = "crack_extrusion" ∨ e.layer = "cube") ∧
    (env7.isLayer "crack_extrusion" = true →
      ∀ l ∈ out7.loft_ids, (out7.state.findObj l).map (fun e => e.layer)
        = some "crack_extrusion") ∧
    (env7.isLayer "crack_extrusion" = true →
      ∀ elast, out7.extrusions.getLast? = some elast →
        (out7.state.findObj elast).map (fun e => e.layer) = some "crack_extrusion") ∧
    (env7.isLayer "crack_extrusion" = false →
      (∀ l ∈ out7.loft_ids, (out7.state.findObj l).map (fun e => e.layer) = some "") ∧
      (∀ i ∈ out7.extrusions, (out7.state.findObj i).map (fun e => e.layer) = some "")) ∧
    (env7.isLayer "cube" = true →
      ∀ i ∈ out7.inner_extrusions, (out7.state.findObj i).map (fun e => e.layer)
        = some "cube") ∧
    (create_crack { env7 with isLayer := fun _ => false } ⟨0, []⟩
      [[(0, 0, 0), (1, 0, 0)], [(2, 0, 0), (3, 0, 0)]] [[(5, 0, 0)]]
      [(0, 0, 0)] [(0, 0, 0)] [[(6, 0, 0)]] (some (0, 0, -1))).isSome = true ∧
    (∀ (host : GeomHost) (cl : ℚ) (face : String) (d : Doc) (g : GroupIn)
        (rest : List GroupIn) (eps bps : List Vec3) (dB dC dD : Doc) (e1 b1 : Nat)
        (dids : List Nat),
      map_2d_to_cube_face cl (center_2d_points cl g.erode_contour.points) face
        = some eps →
      add_polygon_curve d eps = (dB, some e1) →
      map_2d_to_cube_face cl (center_2d_points cl g.base_contour.points) face
        = some bps →
      add_polygon_curve dB bps = (dC, some b1) →
      addDiffPolys cl face dC g.diff_group = .ok (dD, dids) →
      dD.isLayer ("crack_" ++ g.severity) = false →
      process_groups host cl face d (g :: rest) =
        .error (.missingLayer ("crack_" ++ g.severity))) :=
  C7_layer_tagging env7 ⟨0, []⟩ [[(0, 0, 0), (1, 0, 0)], [(2, 0, 0), (3, 0, 0)]]
    [[(5, 0, 0)]] [(0, 0, 0)] [(0, 0, 0)] [[(6, 0, 0)]] (0, 0, -1) out7
    (by intro e he; exact absurd he (List.not_mem_nil e)) run7

/-! ### C9: ingestion purity -/

/-- C9 counterexample: `read_contour_json` is not free of module-level
mutation — on this record it overwrites the module-level `CUBE_LENGTH`
(second component of the embedding, initialized to the pre-call value
500) with `50 * 20 = 1000`. -/
theorem C9_counterexample : (read_contour_json rec9 500).2 ≠ 500 := by
  norm_num [read_contour_json, rec9]

/-- The contour families returned by ingestion do not depend on the
incoming module state. -/
lemma read_contour_json_fst_const (rec : FaceRecord) (cl cl' : ℚ) :
    (read_contour_json rec cl).1 = (read_contour_json rec cl').1 := by
  unfold read_contour_json
  cases rec.pixel_size_cm with
  | none => rfl
  | some psc =>
    dsimp only
    by_cases h : (if rec.width_px.getD 0 ≠ 0 then rec.width_px.getD 0
                  else rec.height_px.getD 0) = 0
    · rw [if_pos h, if_pos h]
    · rw [if_neg h, if_neg h]

/-- C9 (amended): ingestion is deterministic — the returned contour
families depend only on the record, so re-running it (even after the
first run updated the global) yields identical family values, and the
input record is never mutated (it is consumed by value); however the
call does mutate the module-level `CUBE_LENGTH`, setting it to
`map_pixel * pixel_size_mm` whenever the dimension check passes. -/
theorem C9_ingestion_determinism (rec : FaceRecord) (cl cl' : ℚ) :
    (read_contour_json rec cl).1 = (read_contour_json rec cl').1 ∧
    (read_contour_json rec ((read_contour_json rec cl).2)).1 =
      (read_contour_json rec cl).1 ∧
    (∀ psc, rec.pixel_size_cm = some psc →
      (if rec.width_px.getD 0 ≠ 0 then rec.width_px.getD 0
       else rec.height_px.getD 0) ≠ 0 →
      (read_contour_json rec cl).2 =
        (if rec.width_px.getD 0 ≠ 0 then rec.width_px.getD 0
         else rec.height_px.getD 0) * (psc * 10)) := by
  refine ⟨read_contour_json_fst_const rec cl cl',
          read_contour_json_fst_const rec _ cl, ?_⟩
  intro psc hp hmp
  unfold read_contour_json
  rw [hp]
  dsimp only
  rw [if_neg hmp]
  cases rec.contours <;> rfl

/-- Witness for C9 at a concrete record. -/
theorem C9_ingestion_determinism_witness :
    (read_contour_json rec9 500).1 = (read_contour_json rec9 123).1 ∧
    (read_contour_json rec9 500).2 = rec9.width_px.getD 0 * ((2 : ℚ) * 10) :=
  ⟨(C9_ingestion_determinism rec9 500 123).1,
   (C9_ingestion_determinism rec9 500 123).2.2 2 rfl (by norm_num [rec9])⟩

end RhinoDefectSynth
